import Mathlib

/-!
Verification of the backtest engine's specification against a shallow
embedding of the source (app/utils/financial_calculator.py,
app/services/dca_service.py, app/services/rebalancing_service.py,
app/services/backtest_service.py, app/models/transaction.py).

Conventions of the embedding:
* Python floats are modelled as exact rationals (`ℚ`); the floating-point
  functions `math.sqrt`/`numpy.sqrt` and the float power operator `**` are
  modelled as abstract parameters (`sqrtf`, `powf`), so a theorem quantified
  over them holds for any real implementation, and a result that is equal for
  all `powf` provably never evaluates the power.
* Python divisions that can raise `ZeroDivisionError` go through the checked
  `divE` in the `Except` monad; a `.ok` result means no division fault.
* Calendar dates are `Date` records (year, month, day); `Date.toDays` is the
  usual civil-calendar day number, so comparing `toDays` coincides with the
  source's comparison of `pd.Timestamp`s (and with lexicographic comparison
  of ISO `YYYY-MM-DD` strings) on valid dates.
-/

namespace Backtest

/-- A calendar date, mirroring the `pd.Timestamp` dates of the source
(time-of-day is never used by the engine). -/
structure Date where
  y : ℕ
  m : ℕ
  d : ℕ
deriving DecidableEq

/-- Gregorian leap-year rule, as used by `pandas` for `days_in_month`. -/
def isLeapYear (y : ℕ) : Bool :=
  (y % 4 == 0 && y % 100 != 0) || (y % 400 == 0)

/-- Number of days in a month (the `Timestamp.days_in_month` table). The
default arm is never reached for real months 1..12. -/
def daysInMonthTable (leap : Bool) (m : ℕ) : ℕ :=
  match m with
  | 1 => 31
  | 2 => if leap then 29 else 28
  | 3 => 31
  | 4 => 30
  | 5 => 31
  | 6 => 30
  | 7 => 31
  | 8 => 31
  | 9 => 30
  | 10 => 31
  | 11 => 30
  | 12 => 31
  | _ => 31

/-- Days in the months strictly before month `m` of a year with leap flag
`leap`. -/
def daysBeforeMonth (leap : Bool) (m : ℕ) : ℕ :=
  match m with
  | 1 => 0
  | 2 => 31
  | 3 => 59 + (if leap then 1 else 0)
  | 4 => 90 + (if leap then 1 else 0)
  | 5 => 120 + (if leap then 1 else 0)
  | 6 => 151 + (if leap then 1 else 0)
  | 7 => 181 + (if leap then 1 else 0)
  | 8 => 212 + (if leap then 1 else 0)
  | 9 => 243 + (if leap then 1 else 0)
  | 10 => 273 + (if leap then 1 else 0)
  | 11 => 304 + (if leap then 1 else 0)
  | 12 => 334 + (if leap then 1 else 0)
  | _ => 334

/-- Number of leap years in `[1, n]`. -/
def leapsUpto (n : ℕ) : ℕ := n / 4 + n / 400 - n / 100

/-- Civil day number of a date (day 0 is `0001-01-01`); chronological
comparison of timestamps in the source is comparison of these numbers. -/
def Date.toDays (dt : Date) : ℕ :=
  365 * (dt.y - 1) + leapsUpto (dt.y - 1)
    + daysBeforeMonth (isLeapYear dt.y) dt.m + (dt.d - 1)

/-- A date is a real calendar date. -/
def Date.Valid (dt : Date) : Prop :=
  1 ≤ dt.y ∧ 1 ≤ dt.m ∧ dt.m ≤ 12 ∧ 1 ≤ dt.d ∧
    dt.d ≤ daysInMonthTable (isLeapYear dt.y) dt.m

instance (dt : Date) : Decidable dt.Valid :=
  inferInstanceAs (Decidable (_ ∧ _))

/-- Chronological order on dates (the order of `pd.Timestamp` and of ISO
date strings). -/
def dateLe (a b : Date) : Prop := a.toDays ≤ b.toDays

instance : DecidableRel dateLe := fun a b =>
  inferInstanceAs (Decidable (a.toDays ≤ b.toDays))

instance : IsTotal Date dateLe := ⟨fun a b => Nat.le_total a.toDays b.toDays⟩

instance : IsTrans Date dateLe := ⟨fun _ _ _ h1 h2 => Nat.le_trans h1 h2⟩

/-! ## financial_calculator.py -/

/-- Checked division: a Python division, which raises `ZeroDivisionError` on a
zero denominator. An `.ok` result certifies that no division fault occurred. -/
def divE (a b : ℚ) : Except String ℚ :=
  if b = 0 then .error "division by zero" else .ok (a / b)

/-- `FinancialCalculator.calculate_total_return`. -/
def calculate_total_return (start_value end_value : ℚ) : Except String ℚ :=
  if start_value ≤ 0 then .ok 0
  else do
    let r ← divE (end_value - start_value) start_value
    .ok (r * 100)

/-- `FinancialCalculator.calculate_annualized_return`; `powf` abstracts the
float power operator `**` (so a result that is the same for every `powf`
never evaluates the power). -/
def calculate_annualized_return (powf : ℚ → ℚ → ℚ)
    (start_value end_value years : ℚ) : Except String ℚ :=
  if start_value ≤ 0 ∨ years ≤ 0 then .ok 0
  else do
    let r ← divE end_value start_value
    .ok ((powf r (1 / years) - 1) * 100)

/-- `np.mean` of a list (the callers only apply it to nonempty lists). -/
def npMean (l : List ℚ) : ℚ := l.sum / (l.length : ℚ)

/-- Sample variance (`ddof=1`): `Σ (x - mean)² / (n - 1)`; callers guard
`n ≥ 2`, so the denominator is nonzero there. -/
def sampleVar (l : List ℚ) : ℚ :=
  (l.map (fun x => (x - npMean l) ^ 2)).sum / ((l.length : ℚ) - 1)

/-- `np.std(·, ddof=1)` = square root of the sample variance, with the square
root abstracted by `sqrtf`. -/
def npStd1 (sqrtf : ℚ → ℚ) (l : List ℚ) : ℚ := sqrtf (sampleVar l)

/-- `FinancialCalculator.calculate_volatility`. -/
def calculate_volatility (sqrtf : ℚ → ℚ) (returns : List ℚ)
    (annualize : Bool) : ℚ :=
  if returns.length < 2 then 0
  else
    let std_dev := npStd1 sqrtf returns
    if annualize then std_dev * sqrtf 252 * 100 else std_dev * 100

/-- Running state of the single scan in `calculate_max_drawdown`. -/
structure DrawdownState where
  peak : ℚ
  peakIdx : ℕ
  maxDd : ℚ
  maxDdPeakIdx : ℕ
  maxDdTroughIdx : ℕ

/-- One iteration of the `for i, value in enumerate(values)` loop of
`calculate_max_drawdown`. -/
def drawdownStep (st : DrawdownState) (iv : ℕ × ℚ) : DrawdownState :=
  let st1 :=
    if iv.2 > st.peak then { st with peak := iv.2, peakIdx := iv.1 } else st
  let drawdown := if st1.peak > 0 then (st1.peak - iv.2) / st1.peak * 100 else 0
  if drawdown > st1.maxDd then
    { st1 with maxDd := drawdown, maxDdPeakIdx := st1.peakIdx,
               maxDdTroughIdx := iv.1 }
  else st1

/-- `FinancialCalculator.calculate_max_drawdown`. -/
def calculate_max_drawdown (values : List ℚ) : ℚ × ℕ × ℕ :=
  if values.length < 2 then (0, 0, 0)
  else
    let st := values.enum.foldl drawdownStep ⟨values.headD 0, 0, 0, 0, 0⟩
    (-st.maxDd, st.maxDdPeakIdx, st.maxDdTroughIdx)

/-- `FinancialCalculator.calculate_sharpe_ratio`. -/
def calculate_sharpe_ratio (sqrtf : ℚ → ℚ) (returns : List ℚ)
    (risk_free_rate : ℚ) : Except String ℚ :=
  if returns.length < 2 then .ok 0
  else
    let excess_returns := returns.map (fun r => r - risk_free_rate / 252)
    let mean_excess_return := npMean excess_returns
    let std_excess_return := npStd1 sqrtf excess_returns
    if std_excess_return = 0 then .ok 0
    else do
      let q ← divE mean_excess_return std_excess_return
      .ok (q * sqrtf 252)

/-- Root-mean-square of the negative part of `r - target/252`, the Sortino
denominator (`downside_std` in the source). -/
def downsideStd (sqrtf : ℚ → ℚ) (returns : List ℚ) (target_return : ℚ) : ℚ :=
  sqrtf (npMean ((returns.map (fun r => min 0 (r - target_return / 252))).map
    (fun x => x ^ 2)))

/-- `FinancialCalculator.calculate_sortino_ratio`. -/
def calculate_sortino_ratio (sqrtf : ℚ → ℚ) (returns : List ℚ)
    (risk_free_rate target_return : ℚ) : Except String ℚ :=
  if returns.length < 2 then .ok 0
  else
    let excess_returns := returns.map (fun r => r - risk_free_rate / 252)
    let mean_excess_return := npMean excess_returns
    let downside_std := downsideStd sqrtf returns target_return
    if downside_std = 0 then .ok 0
    else do
      let q ← divE mean_excess_return downside_std
      .ok (q * sqrtf 252)

/-! ## Date arithmetic used by dca_service.py (pandas semantics) -/

/-- `pd.DateOffset(months=1)`: step to the next month, clamping the day to
the target month's length. -/
def Date.addMonth (dt : Date) : Date :=
  let y' := if dt.m = 12 then dt.y + 1 else dt.y
  let m' := if dt.m = 12 then 1 else dt.m + 1
  ⟨y', m', min dt.d (daysInMonthTable (isLeapYear y') m')⟩

/-- `pd.DateOffset(days=1)`. -/
def Date.addDay (dt : Date) : Date :=
  if dt.d + 1 ≤ daysInMonthTable (isLeapYear dt.y) dt.m then
    ⟨dt.y, dt.m, dt.d + 1⟩
  else if dt.m = 12 then ⟨dt.y + 1, 1, 1⟩
  else ⟨dt.y, dt.m + 1, 1⟩

/-- `pd.DateOffset(days=n)`. -/
def Date.addDays : Date → ℕ → Date
  | dt, 0 => dt
  | dt, n + 1 => dt.addDay.addDays n

/-- Python's `Timestamp.weekday()` (Monday = 0 … Sunday = 6); day number 0
of `toDays` (0001-01-01) was a Monday. -/
def Date.weekday (dt : Date) : ℕ := dt.toDays % 7

/-- The month counter `12*y + m`, which `Date.addMonth` advances by one. -/
def monthIdx (dt : Date) : ℕ := 12 * dt.y + dt.m

/-! ## dca_service.py -/

/-- The `frequency_config` dict of a periodic-DCA configuration. -/
structure FrequencyConfig where
  day_of_month : Option ℕ

/-- An asset entry `{'symbol': …, 'weight': …}`. -/
structure DcaAsset where
  symbol : String
  weight : ℚ
deriving DecidableEq

/-- Stock data for one symbol: the rows `{'Date': …, 'Close': …}`. -/
abbrev StockRow := Date × ℚ

/-- The dict `{symbol: rows}` returned by the data layer. -/
abbrev StockData := List (String × List StockRow)

/-- The `while current <= end` loop of `_generate_investment_dates` for the
`monthly` branch. The fuel argument bounds the iteration count; each step
advances `monthIdx` by one, so `monthIdx end + 2` steps always suffice. -/
def genMonthlyGo (startD endD : Date) (dom : ℕ) : ℕ → Date → List Date
  | 0, _ => []
  | fuel + 1, cur =>
    if cur.toDays ≤ endD.toDays then
      let investment_date : Date :=
        ⟨cur.y, cur.m, min dom (daysInMonthTable (isLeapYear cur.y) cur.m)⟩
      (if startD.toDays ≤ investment_date.toDays ∧
          investment_date.toDays ≤ endD.toDays then
        [investment_date]
      else []) ++ genMonthlyGo startD endD dom fuel cur.addMonth
    else []

/-- The `weekly`/`biweekly` loop (`step` days per iteration). -/
def genStepGo (endD : Date) (step : ℕ) : ℕ → Date → List Date
  | 0, _ => []
  | fuel + 1, cur =>
    if cur.toDays ≤ endD.toDays then
      cur :: genStepGo endD step fuel (cur.addDays step)
    else []

/-- The `daily` loop (weekdays only). -/
def genDailyGo (endD : Date) : ℕ → Date → List Date
  | 0, _ => []
  | fuel + 1, cur =>
    if cur.toDays ≤ endD.toDays then
      (if cur.weekday < 5 then [cur] else []) ++ genDailyGo endD fuel cur.addDay
    else []

/-- `DCAService._generate_investment_dates`. -/
def _generate_investment_dates (startD endD : Date) (frequency : String)
    (config : FrequencyConfig) : List Date :=
  if frequency == "monthly" then
    genMonthlyGo startD endD (config.day_of_month.getD 1) (monthIdx endD + 2)
      startD
  else if frequency == "weekly" then
    genStepGo endD 7 (endD.toDays + 2) startD
  else if frequency == "biweekly" then
    genStepGo endD 14 (endD.toDays + 2) startD
  else if frequency == "daily" then
    genDailyGo endD (endD.toDays + 2) startD
  else []

/-- All dates occurring in the stock data (with repetitions). -/
def collectDates (stock_data : StockData) : List Date :=
  (stock_data.map (fun p => p.2.map (fun r => r.1))).flatten

/-- `sorted(list(set(all_dates)))`: the distinct trading dates in
chronological order (the simulation clock). -/
def allDates (stock_data : StockData) : List Date :=
  List.insertionSort dateLe (collectDates stock_data).dedup

/-- `price_dict[date][symbol]`: the close of the first row of `symbol` whose
date matches, if any. -/
def priceAt (stock_data : StockData) (symbol : String) (date : Date) :
    Option ℚ :=
  match stock_data.find? (fun p => p.1 == symbol) with
  | some p => (p.2.find? (fun r => r.1 == date)).map (fun r => r.2)
  | none => none

/-- One row of a DCA time series (`{'date', 'invested', 'value',
'return_pct'}`; `triggered` is present only for conditional DCA). -/
structure DcaPoint where
  date : Date
  invested : ℚ
  value : ℚ
  return_pct : ℚ
  triggered : Option Bool
deriving DecidableEq

/-- The dict returned by `_calculate_dca_returns` /
`_calculate_conditional_dca_returns`. -/
structure DcaResult where
  time_series : List DcaPoint
  final_shares : List (String × ℚ)
  total_invested : ℚ
deriving DecidableEq

/-- Portfolio value at `date`: symbols without a price bar that day
contribute nothing. -/
def dcaValueAt (stock_data : StockData) (shares : List (DcaAsset × ℚ))
    (date : Date) : ℚ :=
  shares.foldl (fun acc p =>
    match priceAt stock_data p.1.symbol date with
    | some price => acc + p.2 * price
    | none => acc) 0

/-- Buy `amount` split by weight at `date` (skipping symbols without a price
bar that day). -/
def dcaBuy (stock_data : StockData) (amount : ℚ) (date : Date)
    (shares : List (DcaAsset × ℚ)) : List (DcaAsset × ℚ) :=
  shares.map (fun p =>
    match priceAt stock_data p.1.symbol date with
    | some price => (p.1, p.2 + amount * (p.1.weight / 100) / price)
    | none => p)

/-- One iteration of the `for date in all_dates` loop of
`_calculate_dca_returns`. State: (shares, total_invested, time series). -/
def dcaStep (stock_data : StockData) (investment_amount : ℚ)
    (investment_dates : List Date)
    (st : List (DcaAsset × ℚ) × ℚ × List DcaPoint) (date : Date) :
    List (DcaAsset × ℚ) × ℚ × List DcaPoint :=
  let shares :=
    if date ∈ investment_dates then
      dcaBuy stock_data investment_amount date st.1
    else st.1
  let invested :=
    if date ∈ investment_dates then st.2.1 + investment_amount else st.2.1
  let value := dcaValueAt stock_data shares date
  let pt : DcaPoint :=
    { date := date, invested := invested, value := value,
      return_pct :=
        if invested > 0 then (value - invested) / invested * 100 else 0,
      triggered := none }
  (shares, invested, st.2.2 ++ [pt])

/-- The initial allocation of `_calculate_dca_returns` (buy
`initial_amount * weight` of each symbol at the first trading date). -/
def dcaInitialShares (stock_data : StockData) (assets : List DcaAsset)
    (initial_amount : ℚ) (first_date? : Option Date) :
    List (DcaAsset × ℚ) :=
  let shares0 := assets.map (fun a => (a, (0 : ℚ)))
  match first_date? with
  | some first_date =>
    if initial_amount > 0 then
      shares0.map (fun p =>
        match priceAt stock_data p.1.symbol first_date with
        | some price => (p.1, initial_amount * (p.1.weight / 100) / price)
        | none => p)
    else shares0
  | none => shares0

/-- `DCAService._calculate_dca_returns`. -/
def _calculate_dca_returns (stock_data : StockData) (assets : List DcaAsset)
    (initial_amount investment_amount : ℚ) (investment_dates : List Date) :
    DcaResult :=
  let all_dates := allDates stock_data
  let shares1 :=
    dcaInitialShares stock_data assets initial_amount all_dates.head?
  let final := all_dates.foldl
    (dcaStep stock_data investment_amount investment_dates)
    (shares1, initial_amount, [])
  { time_series := final.2.2,
    final_shares := final.1.map (fun p => (p.1.symbol, p.2)),
    total_invested := final.2.1 }

/-! ### Conditional DCA: trigger detection (C2) -/

/-- The `type` field of a conditional-DCA condition. -/
inductive CondType
  | price_drop
  | drawdown
deriving DecidableEq

/-- A condition dict. Required config keys are plain fields; keys read with
`.get(…, default)` in the source are `Option`s. A `drawdown` condition may
carry a `cooldown_days` key, but the source never reads it. -/
inductive Condition
  | price_drop (drop_percentage : ℚ) (amount : ℚ) (cooldown_days : Option ℤ)
  | drawdown (drawdown_threshold : ℚ) (lookback_days : Option ℕ)
      (amount : Option ℚ) (cooldown_days : Option ℤ)
deriving DecidableEq

/-- A trigger dict as produced by `_detect_condition_triggers`. -/
structure Trigger where
  date : Date
  ttype : CondType
  trigger_value : ℚ
  threshold : ℚ
  amount : ℚ
deriving DecidableEq

/-- A trigger instrumented with the index of the condition that emitted it
(the position in the configuration's `conditions` list). -/
structure TriggerI where
  condIdx : ℕ
  date : Date
  ttype : CondType
  trigger_value : ℚ
  threshold : ℚ
  amount : ℚ
deriving DecidableEq

/-- Drop the instrumentation index. -/
def TriggerI.forget (t : TriggerI) : Trigger :=
  ⟨t.date, t.ttype, t.trigger_value, t.threshold, t.amount⟩

/-- `DCAService._check_cooldown`: `(current - last).days >= cooldown_days`,
calendar days between the two dates. -/
def _check_cooldown (current_date last_trigger_date : Date)
    (cooldown_days : ℤ) : Bool :=
  decide ((current_date.toDays : ℤ) - (last_trigger_date.toDays : ℤ)
    ≥ cooldown_days)

/-- The cooldown actually enforced by the source for a condition: the
configured `cooldown_days` (default 0) for `price_drop`, but a hard-coded 7
for `drawdown`. -/
def effCooldown : Condition → ℤ
  | .price_drop _ _ cooldown_days => cooldown_days.getD 0
  | .drawdown _ _ _ _ => 7

/-- `DCAService._get_max_price`: maximum close in
`prices[max(0, i - lookback) .. i]`. -/
def _get_max_price (prices : List (Date × ℚ)) (current_idx lookback_days : ℕ) :
    ℚ :=
  ((prices.drop (current_idx - lookback_days)).take
      (current_idx - (current_idx - lookback_days) + 1)).foldl
    (fun mx r => if r.2 > mx then r.2 else mx) 0

/-- The body of the `for condition in conditions` loop of
`_detect_condition_triggers` at one date (`cur`, with previous row `prev` and
the processed prefix `seen`, `cur` included, for the drawdown lookback). -/
def condStep (seen : List (Date × ℚ)) (cur prev : Date × ℚ)
    (acc : List TriggerI) (ci : ℕ × Condition) : List TriggerI :=
  match ci.2 with
  | .price_drop drop_percentage amount cooldown_days =>
    let drop_pct := (prev.2 - cur.2) / prev.2 * 100
    if drop_pct ≥ drop_percentage then
      let ok :=
        match acc.getLast? with
        | none => true
        | some t => _check_cooldown cur.1 t.date (cooldown_days.getD 0)
      if ok then
        acc ++ [⟨ci.1, cur.1, .price_drop, drop_pct, drop_percentage, amount⟩]
      else acc
    else acc
  | .drawdown drawdown_threshold lookback_days amount _ =>
    let lookback := lookback_days.getD 252
    let max_price := _get_max_price seen (seen.length - 1) lookback
    let ddown := (max_price - cur.2) / max_price * 100
    if ddown ≥ drawdown_threshold then
      let ok :=
        match acc.getLast? with
        | none => true
        | some t => _check_cooldown cur.1 t.date 7
      if ok then
        acc ++ [⟨ci.1, cur.1, .drawdown, ddown, drawdown_threshold,
          amount.getD 1000⟩]
      else acc
    else acc

/-- The `for i in range(1, len(portfolio_prices))` loop: `seen` is the prefix
processed so far (ending in `prev`), `rest` the remaining rows. -/
def detectGo (conds : List (ℕ × Condition)) :
    List (Date × ℚ) → Date × ℚ → List (Date × ℚ) → List TriggerI →
      List TriggerI
  | _, _, [], acc => acc
  | seen, prev, cur :: rest, acc =>
    detectGo conds (seen ++ [cur]) cur rest
      (conds.foldl (condStep (seen ++ [cur]) cur prev) acc)

/-- Trigger detection over a portfolio price series, instrumented with
condition indices. -/
def detectTriggersIdx (conds : List Condition) (prices : List (Date × ℚ)) :
    List TriggerI :=
  match prices with
  | [] => []
  | p0 :: rest => detectGo conds.enum [p0] p0 rest []

/-- `DCAService._calculate_portfolio_prices`: per date, the equal-weight
average close over the symbols that have a bar that day. -/
def _calculate_portfolio_prices (stock_data : StockData) :
    List (Date × ℚ) :=
  (allDates stock_data).filterMap (fun date =>
    let s := stock_data.foldl (fun acc p =>
      match p.2.find? (fun r => r.1 == date) with
      | some r => (acc.1 + r.2, acc.2 + 1)
      | none => acc) ((0 : ℚ), (0 : ℕ))
    if s.2 > 0 then some (date, s.1 / (s.2 : ℚ)) else none)

/-- `DCAService._detect_condition_triggers` (the returned triggers are the
instrumented ones with the condition index dropped). -/
def _detect_condition_triggers (stock_data : StockData)
    (conds : List Condition) : List Trigger :=
  (detectTriggersIdx conds
    (_calculate_portfolio_prices stock_data)).map TriggerI.forget

/-- Adjacent-trigger invariant: dates are non-decreasing and the later
trigger is at least its own condition's enforced cooldown after the earlier
one. -/
def TrigGap (conds : List Condition) (t t' : TriggerI) : Prop :=
  t.date.toDays ≤ t'.date.toDays ∧
    ∀ c, conds[t'.condIdx]? = some c →
      (t'.date.toDays : ℤ) - (t.date.toDays : ℤ) ≥ effCooldown c

/-- Date order on instrumented triggers. -/
def trigDateLe (a b : TriggerI) : Prop := a.date.toDays ≤ b.date.toDays

instance : IsTrans TriggerI trigDateLe :=
  ⟨fun _ _ _ h1 h2 => Nat.le_trans h1 h2⟩

/-! ## rebalancing_service.py (C3) -/

/-- One row of the rebalancing portfolio-value series. -/
structure RebPoint where
  date : Date
  value : ℚ
  daily_return : ℚ
  rebalanced : Bool
deriving DecidableEq

/-- Loop state of `_calculate_periodic_rebalance`: current share counts, the
previous rebalance date, the `rebalance_history` list, and the accumulated
`portfolio_values`. -/
structure RebState where
  shares : List (String × ℚ)
  lastRebalance : Date
  history : List Date
  points : List RebPoint
deriving DecidableEq

/-- `RebalancingService._should_rebalance`: calendar-field comparison of the
current date against the previous rebalance date. -/
def _should_rebalance (current_date last_rebalance_date : Date)
    (frequency : String) : Bool :=
  if frequency == "yearly" then
    decide (current_date.y > last_rebalance_date.y)
  else if frequency == "quarterly" then
    decide (current_date.y > last_rebalance_date.y ∨
      (current_date.y = last_rebalance_date.y ∧
        (current_date.m - 1) / 3 > (last_rebalance_date.m - 1) / 3))
  else if frequency == "monthly" then
    decide (current_date.y > last_rebalance_date.y ∨
      (current_date.y = last_rebalance_date.y ∧
        current_date.m > last_rebalance_date.m))
  else false

/-- Mark-to-market of the rebalancing loop: `shares.get(symbol, 0) * price`
summed over the symbols with a bar at `date`. -/
def rebPortfolioValue (stock_data : StockData) (shares : List (String × ℚ))
    (date : Date) : ℚ :=
  stock_data.foldl (fun acc p =>
    match p.2.find? (fun r => r.1 == date) with
    | some r =>
      acc + (match shares.find? (fun sp => sp.1 == p.1) with
        | some sp => sp.2
        | none => 0) * r.2
    | none => acc) 0

/-- `RebalancingService._rebalance_portfolio`: re-derive target share counts
from the current total value and the target weights (skipping symbols
without a bar at `date`). -/
def _rebalance_portfolio (stock_data : StockData)
    (weights : List (String × ℚ)) (total_value : ℚ) (date : Date) :
    List (String × ℚ) :=
  weights.filterMap (fun w =>
    match stock_data.find? (fun p => p.1 == w.1) with
    | some p =>
      match p.2.find? (fun r => r.1 == date) with
      | some r => some (w.1, total_value * w.2 / 100 / r.2)
      | none => none
    | none => none)

/-- The source's `_initialize_shares` (allocate the initial amount at each
symbol's first close; a symbol missing from `weights` — a `KeyError` in
Python — is modelled as weight 0). -/
def initShares (stock_data : StockData) (weights : List (String × ℚ))
    (initial_amount : ℚ) : List (String × ℚ) :=
  stock_data.filterMap (fun p =>
    match p.2.head? with
    | some r =>
      some (p.1,
        initial_amount * (match weights.find? (fun w => w.1 == p.1) with
          | some w => w.2
          | none => 0) / 100 / r.2)
    | none => none)

/-- One iteration of the `for date in all_dates` loop of
`_calculate_periodic_rebalance`. -/
def rebStep (stock_data : StockData) (weights : List (String × ℚ))
    (frequency : String) (st : RebState) (date : Date) : RebState :=
  let portfolio_value := rebPortfolioValue stock_data st.shares date
  let st1 :=
    if _should_rebalance date st.lastRebalance frequency then
      { st with
        shares := _rebalance_portfolio stock_data weights portfolio_value
          date,
        lastRebalance := date,
        history := st.history ++ [date] }
    else st
  let daily_return :=
    match st1.points.getLast? with
    | some p =>
      if p.value > 0 then (portfolio_value - p.value) / p.value else 0
    | none => 0
  let pt : RebPoint :=
    { date := date, value := portfolio_value,
      daily_return := daily_return,
      rebalanced := decide (date = st1.lastRebalance) }
  { st1 with points := st1.points ++ [pt] }

/-- The loop of `_calculate_periodic_rebalance` started from the initial
state (initial shares, `last_rebalance_date = first trading date`). -/
def rebRun (stock_data : StockData) (weights : List (String × ℚ))
    (initial_amount : ℚ) (frequency : String) (first : Date)
    (l : List Date) : RebState :=
  l.foldl (rebStep stock_data weights frequency)
    { shares := initShares stock_data weights initial_amount,
      lastRebalance := first, history := [], points := [] }

/-- `RebalancingService._calculate_periodic_rebalance` (the Python function
returns the `.points` series; `.history` is its `rebalance_history`). -/
def _calculate_periodic_rebalance (stock_data : StockData)
    (weights : List (String × ℚ)) (initial_amount : ℚ)
    (frequency : String) : RebState :=
  match (allDates stock_data).head? with
  | none => { shares := [], lastRebalance := ⟨0, 0, 0⟩, history := [], points := [] }
  | some first =>
    rebRun stock_data weights initial_amount frequency first
      (allDates stock_data)

/-- The calendar period of a date under a rebalance frequency: the year, the
(year, quarter) pair, or the (year, month) pair. -/
def periodKey (frequency : String) (d : Date) : ℕ × ℕ :=
  if frequency == "yearly" then (d.y, 0)
  else if frequency == "quarterly" then (d.y, (d.m - 1) / 3)
  else (d.y, d.m)

/-- Strict lexicographic order on period keys: "lies in a strictly later
calendar period". -/
def keyLt (a b : ℕ × ℕ) : Prop :=
  a.1 < b.1 ∨ (a.1 = b.1 ∧ a.2 < b.2)

instance (a b : ℕ × ℕ) : Decidable (keyLt a b) :=
  inferInstanceAs (Decidable (_ ∨ _))

/-- The invariant carried through the rebalancing loop: the history's period
keys are strictly increasing, and no recorded rebalance lies in a later
period than the current `last_rebalance_date`. -/
def RebInv (frequency : String) (st : RebState) : Prop :=
  st.history.Pairwise
    (fun a b => keyLt (periodKey frequency a) (periodKey frequency b)) ∧
  ∀ h ∈ st.history,
    ¬ keyLt (periodKey frequency st.lastRebalance) (periodKey frequency h)

/-! ## transaction.py: TransactionAnalyzer.check_buy_signals (C7) -/

/-- The `BuyReason` enum. -/
inductive BuyReason
  | INITIAL
  | REBALANCE
  | DCA_PERIODIC
  | PRICE_DROP
  | DRAWDOWN
  | VIX_HIGH
  | RSI_OVERSOLD
  | MACD_GOLDEN_CROSS
  | SUPPORT_LEVEL
  | CUSTOM
deriving DecidableEq

/-- The `indicators` dict: a key that may be absent is an `Option`. -/
structure Indicators where
  drawdown : Option ℚ
  vix : Option ℚ
  rsi : Option ℚ
  macd : Option ℚ
  macd_signal : Option ℚ
  prev_macd : Option ℚ
  prev_signal : Option ℚ
  support_level : Option ℚ

/-- The `config` dict of threshold overrides (defaults applied via `.get`). -/
structure SignalConfig where
  daily_drop_threshold : Option ℚ
  drawdown_threshold : Option ℚ
  vix_threshold : Option ℚ
  rsi_oversold : Option ℚ

/-- The 4-tuple returned by `check_buy_signals`; the formatted strings are
produced through an abstract formatter `fmt : format spec → value → text`. -/
structure SignalResult where
  triggered : Bool
  reason : String
  reason_code : BuyReason
  details : List (String × String)
deriving DecidableEq

/-- The not-triggered result `(False, "", BuyReason.CUSTOM, {})`. -/
def notTriggered : SignalResult := ⟨false, "", .CUSTOM, []⟩

/-- Rule 1 guard: at least two prices and daily return at or below the drop
threshold (default −5%). -/
def ruleDailyDrop (current_price : ℚ) (price_history : List ℚ)
    (config : SignalConfig) : Bool :=
  decide (2 ≤ price_history.length) &&
    decide ((current_price - price_history.getD (price_history.length - 2) 0)
        / price_history.getD (price_history.length - 2) 0 ≤
      config.daily_drop_threshold.getD (-(5 : ℚ) / 100))

/-- Rule 2 guard: drawdown present and at or below the threshold
(default −10%). -/
def ruleDrawdown (ind : Indicators) (config : SignalConfig) : Bool :=
  match ind.drawdown with
  | some dd => decide (dd ≤ config.drawdown_threshold.getD (-(10 : ℚ) / 100))
  | none => false

/-- Rule 3 guard: VIX present and above the threshold (default 30). -/
def ruleVix (ind : Indicators) (config : SignalConfig) : Bool :=
  match ind.vix with
  | some v => decide (v > config.vix_threshold.getD 30)
  | none => false

/-- Rule 4 guard: RSI present and below the oversold level (default 30). -/
def ruleRsi (ind : Indicators) (config : SignalConfig) : Bool :=
  match ind.rsi with
  | some r => decide (r < config.rsi_oversold.getD 30)
  | none => false

/-- Rule 5 guard: MACD golden cross (both lines present; previous MACD at or
below previous signal, current MACD above current signal; absent previous
values default to 0). -/
def ruleMacd (ind : Indicators) : Bool :=
  match ind.macd, ind.macd_signal with
  | some macd, some signal =>
    decide (ind.prev_macd.getD 0 ≤ ind.prev_signal.getD 0 ∧ macd > signal)
  | some _, none => false
  | none, _ => false

/-- Rule 6 guard: support level present and price within 2% above it. -/
def ruleSupport (current_price : ℚ) (ind : Indicators) : Bool :=
  match ind.support_level with
  | some s => decide (current_price ≤ s * (102 / 100))
  | none => false

/-- Step 6 of `check_buy_signals` (support level; last, falls through to the
not-triggered result). -/
def checkSupportLevel (fmt : String → ℚ → String) (current_price : ℚ)
    (ind : Indicators) : SignalResult :=
  match ind.support_level with
  | some support =>
    if current_price ≤ support * (102 / 100) then
      { triggered := true,
        reason := "价格" ++ fmt ".2f" current_price ++ "接近支撑位"
          ++ fmt ".2f" support,
        reason_code := .SUPPORT_LEVEL,
        details := [("price", fmt ".2f" current_price),
          ("support_level", fmt ".2f" support)] }
    else notTriggered
  | none => notTriggered

/-- Step 5 of `check_buy_signals` (MACD golden cross). -/
def checkMacd (fmt : String → ℚ → String) (current_price : ℚ)
    (ind : Indicators) : SignalResult :=
  match ind.macd, ind.macd_signal with
  | some macd, some signal =>
    if ind.prev_macd.getD 0 ≤ ind.prev_signal.getD 0 ∧ macd > signal then
      { triggered := true,
        reason := "MACD金叉信号",
        reason_code := .MACD_GOLDEN_CROSS,
        details := [("macd", fmt ".4f" macd),
          ("signal", fmt ".4f" signal)] }
    else checkSupportLevel fmt current_price ind
  | some _, none => checkSupportLevel fmt current_price ind
  | none, _ => checkSupportLevel fmt current_price ind

/-- Step 4 of `check_buy_signals` (RSI oversold). -/
def checkRsi (fmt : String → ℚ → String) (current_price : ℚ)
    (ind : Indicators) (config : SignalConfig) : SignalResult :=
  match ind.rsi with
  | some rsi =>
    if rsi < config.rsi_oversold.getD 30 then
      { triggered := true,
        reason := "RSI指标" ++ fmt ".2f" rsi ++ "，超卖信号",
        reason_code := .RSI_OVERSOLD,
        details := [("rsi", fmt ".2f" rsi),
          ("trigger_threshold", fmt "str" (config.rsi_oversold.getD 30))] }
    else checkMacd fmt current_price ind
  | none => checkMacd fmt current_price ind

/-- Step 3 of `check_buy_signals` (VIX above threshold). -/
def checkVix (fmt : String → ℚ → String) (current_price : ℚ)
    (ind : Indicators) (config : SignalConfig) : SignalResult :=
  match ind.vix with
  | some vix =>
    if vix > config.vix_threshold.getD 30 then
      { triggered := true,
        reason := "VIX指数" ++ fmt ".2f" vix ++ "超过阈值"
          ++ fmt "str" (config.vix_threshold.getD 30),
        reason_code := .VIX_HIGH,
        details := [("vix", fmt ".2f" vix),
          ("trigger_threshold", fmt "str" (config.vix_threshold.getD 30))] }
    else checkRsi fmt current_price ind config
  | none => checkRsi fmt current_price ind config

/-- Step 2 of `check_buy_signals` (drawdown-from-peak). -/
def checkDrawdown (fmt : String → ℚ → String) (current_price : ℚ)
    (ind : Indicators) (config : SignalConfig) : SignalResult :=
  match ind.drawdown with
  | some drawdown =>
    if drawdown ≤ config.drawdown_threshold.getD (-(10 : ℚ) / 100) then
      { triggered := true,
        reason := "回撤" ++ fmt ".2%" drawdown ++ "，触发买入",
        reason_code := .DRAWDOWN,
        details := [("drawdown", fmt ".2%" drawdown),
          ("trigger_threshold",
            fmt ".1%" (config.drawdown_threshold.getD (-(10 : ℚ) / 100)))] }
    else checkVix fmt current_price ind config
  | none => checkVix fmt current_price ind config

/-- Step 1 of `check_buy_signals` (daily drop). -/
def checkDailyDrop (fmt : String → ℚ → String) (current_price : ℚ)
    (price_history : List ℚ) (ind : Indicators) (config : SignalConfig) :
    SignalResult :=
  if 2 ≤ price_history.length then
    let prev := price_history.getD (price_history.length - 2) 0
    let daily_return := (current_price - prev) / prev
    let drop_threshold := config.daily_drop_threshold.getD (-(5 : ℚ) / 100)
    if daily_return ≤ drop_threshold then
      { triggered := true,
        reason := "当日跌幅" ++ fmt ".2%" daily_return ++ "，触发买入",
        reason_code := .PRICE_DROP,
        details := [("daily_return", fmt ".2%" daily_return),
          ("trigger_threshold", fmt ".1%" drop_threshold)] }
    else checkDrawdown fmt current_price ind config
  else checkDrawdown fmt current_price ind config

/-- `TransactionAnalyzer.check_buy_signals`: rules 1-6 tried in order, first
match returns. -/
def check_buy_signals (fmt : String → ℚ → String) (current_price : ℚ)
    (price_history : List ℚ) (indicators : Indicators)
    (config : SignalConfig) : SignalResult :=
  checkDailyDrop fmt current_price price_history indicators config

/-- The spec's ordered rule list (priority order: daily drop, drawdown, VIX,
RSI, MACD golden cross, support level). -/
def signalRules (current_price : ℚ) (price_history : List ℚ)
    (ind : Indicators) (config : SignalConfig) : List (Bool × BuyReason) :=
  [(ruleDailyDrop current_price price_history config, .PRICE_DROP),
   (ruleDrawdown ind config, .DRAWDOWN),
   (ruleVix ind config, .VIX_HIGH),
   (ruleRsi ind config, .RSI_OVERSOLD),
   (ruleMacd ind, .MACD_GOLDEN_CROSS),
   (ruleSupport current_price ind, .SUPPORT_LEVEL)]

/-- Spec-side evaluation: the reason of the first rule whose guard holds. -/
def firstSignal (current_price : ℚ) (price_history : List ℚ)
    (ind : Indicators) (config : SignalConfig) : Option BuyReason :=
  ((signalRules current_price price_history ind config).find?
    (fun r => r.1)).map (fun r => r.2)

/-- Day number of January 1 of year `y`. -/
def yearStart (y : ℕ) : ℕ := 365 * (y - 1) + leapsUpto (y - 1)

/-! ## backtest_service.py and the remaining calculator pipeline (C6, C9) -/

/-- A row of a portfolio value series (`date`/`value`/`daily_return` dicts;
`cumulative_return` is present only in `calculate_portfolio_values` rows and
`rebalanced` only in periodic-rebalancing rows). -/
structure ValuePoint where
  date : Date
  value : ℚ
  daily_return : ℚ
  cumulative_return : Option ℚ
  rebalanced : Option Bool
deriving DecidableEq

/-- View a rebalancing row as a generic value row. -/
def RebPoint.toValuePoint (p : RebPoint) : ValuePoint :=
  ⟨p.date, p.value, p.daily_return, none, some p.rebalanced⟩

/-- One iteration of the daily loop of
`FinancialCalculator.calculate_portfolio_values` (state: previous value and
accumulated rows). -/
def portfolioStep (stock_data : StockData) (shares : List (String × ℚ))
    (initial_amount : ℚ) (st : ℚ × List ValuePoint) (date : Date) :
    ℚ × List ValuePoint :=
  let value := shares.foldl (fun acc sp =>
    match priceAt stock_data sp.1 date with
    | some p => acc + sp.2 * p
    | none => acc) 0
  let daily_return := if st.1 > 0 then (value - st.1) / st.1 * 100 else 0
  let pt : ValuePoint :=
    { date := date, value := value, daily_return := daily_return,
      cumulative_return :=
        some ((value - initial_amount) / initial_amount * 100),
      rebalanced := none }
  (value, st.2 ++ [pt])

/-- `FinancialCalculator.calculate_portfolio_values`. -/
def calculate_portfolio_values (stock_data : StockData)
    (weights : List (String × ℚ)) (initial_amount : ℚ) : List ValuePoint :=
  match (allDates stock_data).head? with
  | none => []
  | some first =>
    let shares := weights.filterMap (fun w =>
      match priceAt stock_data w.1 first with
      | some p => some (w.1, initial_amount * (w.2 / 100) / p)
      | none => none)
    ((allDates stock_data).foldl
      (portfolioStep stock_data shares initial_amount)
      (initial_amount, [])).2

/-- One iteration of the daily loop of
`RebalancingService._calculate_no_rebalance`. -/
def noRebStep (stock_data : StockData) (shares : List (String × ℚ))
    (st : List ValuePoint) (date : Date) : List ValuePoint :=
  let value := rebPortfolioValue stock_data shares date
  let daily_return :=
    match st.getLast? with
    | some p => if p.value > 0 then (value - p.value) / p.value else 0
    | none => 0
  st ++ [⟨date, value, daily_return, none, none⟩]

/-- `RebalancingService._calculate_no_rebalance`. -/
def _calculate_no_rebalance (stock_data : StockData)
    (weights : List (String × ℚ)) (initial_amount : ℚ) : List ValuePoint :=
  (allDates stock_data).foldl
    (noRebStep stock_data (initShares stock_data weights initial_amount)) []

/-- `RebalancingService.apply_rebalancing` (frequency dispatch). -/
def apply_rebalancing (stock_data : StockData)
    (weights : List (String × ℚ)) (initial_amount : ℚ)
    (frequency : String) : List ValuePoint :=
  if frequency == "none" || frequency == "" then
    _calculate_no_rebalance stock_data weights initial_amount
  else if frequency == "yearly" || frequency == "quarterly" ||
      frequency == "monthly" then
    (_calculate_periodic_rebalance stock_data weights initial_amount
      frequency).points.map RebPoint.toValuePoint
  else
    _calculate_no_rebalance stock_data weights initial_amount

/-- Population variance (`np.std` with the default `ddof=0`, squared). -/
def npPopVar (l : List ℚ) : ℚ :=
  (l.map (fun x => (x - npMean l) ^ 2)).sum / (l.length : ℚ)

/-- One row of the annual breakdown. -/
structure AnnualReturn where
  year : ℕ
  start_value : ℚ
  end_value : ℚ
  annual_return : ℚ
  volatility : ℚ
deriving DecidableEq

/-- `FinancialCalculator.calculate_annual_returns` (pandas `unique` keeps
years in order of first appearance, as `List.dedup` does). -/
def calculate_annual_returns (sqrtf : ℚ → ℚ)
    (portfolio_values : List ValuePoint) :
    Except String (List AnnualReturn) :=
  if portfolio_values.isEmpty then .ok []
  else
    ((portfolio_values.map (fun p => p.date.y)).dedup).mapM (fun y => do
      let year_data := portfolio_values.filter (fun p => p.date.y == y)
      let start_value := (year_data.map (fun p => p.value)).headD 0
      let end_value := (year_data.map (fun p => p.value)).getLastD 0
      let annual_return ← calculate_total_return start_value end_value
      let volatility :=
        sqrtf (npPopVar (year_data.map (fun p => p.daily_return))) *
          sqrtf 252
      Except.ok { year := y, start_value := start_value,
                  end_value := end_value,
                  annual_return := annual_return,
                  volatility := volatility })

/-- The dict returned by `FinancialCalculator.calculate_risk_metrics`. -/
structure RiskMetricsOut where
  total_return : ℚ
  annualized_return : ℚ
  volatility : ℚ
  max_drawdown : ℚ
  sharpe_ratio : ℚ
  sortino_ratio : ℚ
  positive_days : ℕ
  total_days : ℕ
  positive_rate : ℚ
  max_drawdown_peak_date : Option Date
  max_drawdown_trough_date : Option Date
deriving DecidableEq

/-- `FinancialCalculator.calculate_risk_metrics` (`none` models the `{}`
returned for an empty series). -/
def calculate_risk_metrics (sqrtf : ℚ → ℚ) (powf : ℚ → ℚ → ℚ)
    (portfolio_values : List ValuePoint) :
    Except String (Option RiskMetricsOut) :=
  match portfolio_values with
  | [] => .ok none
  | _ :: _ => do
    let values := portfolio_values.map (fun p => p.value)
    let returns := (portfolio_values.drop 1).map (fun p => p.daily_return)
    let start_value := values.headD 0
    let end_value := values.getLastD 0
    let years : ℚ := (values.length : ℚ) / 252
    let total_return ← calculate_total_return start_value end_value
    let annualized_return ← calculate_annualized_return powf start_value
      end_value years
    let volatility := calculate_volatility sqrtf returns true
    let mdd := calculate_max_drawdown values
    let sharpe_ratio ← calculate_sharpe_ratio sqrtf returns 0
    let sortino_ratio ← calculate_sortino_ratio sqrtf returns 0 0
    let positive_days := returns.countP (fun r => decide (r > 0))
    let positive_rate :=
      if returns.isEmpty then 0
      else (positive_days : ℚ) / (returns.length : ℚ) * 100
    let out : RiskMetricsOut :=
      { total_return := total_return,
        annualized_return := annualized_return, volatility := volatility,
        max_drawdown := mdd.1, sharpe_ratio := sharpe_ratio,
        sortino_ratio := sortino_ratio, positive_days := positive_days,
        total_days := returns.length, positive_rate := positive_rate,
        max_drawdown_peak_date :=
          (portfolio_values.get? mdd.2.1).map (fun p => p.date),
        max_drawdown_trough_date :=
          (portfolio_values.get? mdd.2.2).map (fun p => p.date) }
    Except.ok (some out)

/-- Settings defaults (`app/core/config.py`). -/
def max_assets_count : ℕ := 5

/-- Settings default `min_initial_amount`. -/
def min_initial_amount : ℚ := 1000

/-- Settings default `max_initial_amount`. -/
def max_initial_amount : ℚ := 1000000

/-- An asset entry of a backtest configuration. -/
structure BacktestAsset where
  symbol : String
  weight : ℚ
deriving DecidableEq

/-- A backtest configuration (the four required fields are structure fields;
`rebalance_frequency` read with `.get(…, 'none')` defaults to `"none"`). -/
structure BacktestConfig where
  assets : List BacktestAsset
  start_date : Date
  end_date : Date
  initial_amount : ℚ
  rebalance_frequency : String
deriving DecidableEq

/-- The `ValueError`s raised by `BacktestService._validate_config` (the
missing-required-field errors cannot arise here because the configuration
record always carries the required fields). -/
inductive ConfigError
  | noAssets
  | tooManyAssets
  | badWeightSum (total : ℚ)
  | amountTooSmall
  | amountTooLarge
deriving DecidableEq

/-- Sum of the configured asset weights. -/
def totalWeight (cfg : BacktestConfig) : ℚ :=
  (cfg.assets.map (fun a => a.weight)).sum

/-- `BacktestService._validate_config`, checks in source order. -/
def _validate_config (cfg : BacktestConfig) : Except ConfigError Unit :=
  if cfg.assets.isEmpty then .error .noAssets
  else if max_assets_count < cfg.assets.length then .error .tooManyAssets
  else if 1 / 100 < |totalWeight cfg - 100| then
    .error (.badWeightSum (totalWeight cfg))
  else if cfg.initial_amount < min_initial_amount then
    .error .amountTooSmall
  else if max_initial_amount < cfg.initial_amount then
    .error .amountTooLarge
  else .ok ()

/-- What the `except` clause of `run_backtest` caught: a configuration
error, or a numeric error from the metric pipeline. -/
inductive RunError
  | config (e : ConfigError)
  | numeric (msg : String)
deriving DecidableEq

/-- The `performance_summary` dict of a completed result. -/
structure PerformanceSummary where
  start_value : ℚ
  end_value : ℚ
  total_return_pct : ℚ
  annualized_return_pct : ℚ
deriving DecidableEq

/-- The `risk_metrics` dict of a completed result. -/
structure RiskMetricsSummary where
  volatility_annual_pct : ℚ
  max_drawdown_pct : ℚ
  sharpe_ratio : ℚ
  sortino_ratio : ℚ
  positive_rate_pct : ℚ
deriving DecidableEq

/-- `result['risk_metrics']` built with `.get(…, 0)` from the computed
metrics dict. -/
def riskSummaryOf (rm : Option RiskMetricsOut) : RiskMetricsSummary :=
  { volatility_annual_pct := (rm.map (fun r => r.volatility)).getD 0,
    max_drawdown_pct := (rm.map (fun r => r.max_drawdown)).getD 0,
    sharpe_ratio := (rm.map (fun r => r.sharpe_ratio)).getD 0,
    sortino_ratio := (rm.map (fun r => r.sortino_ratio)).getD 0,
    positive_rate_pct := (rm.map (fun r => r.positive_rate)).getD 0 }

/-- The result dict of `run_backtest` (ids and timestamps are
nondeterministic externals and are omitted; `benchmark_comparison` requires
an external data fetch and is out of the core's scope). -/
structure BacktestResult where
  status : String
  error : Option RunError
  performance_summary : Option PerformanceSummary
  risk_metrics : Option RiskMetricsSummary
  annual_returns : List AnnualReturn
  time_series : List ValuePoint
deriving DecidableEq

/-- The failure result built in the `except` clause. -/
def failedResult (e : RunError) : BacktestResult :=
  { status := "failed", error := some e, performance_summary := none,
    risk_metrics := none, annual_returns := [], time_series := [] }

/-- Step 4 of `run_backtest`: the full (untruncated) daily value series. -/
def backtestPortfolioValues (cfg : BacktestConfig)
    (stock_data : StockData) : List ValuePoint :=
  let weights := cfg.assets.map (fun a => (a.symbol, a.weight))
  if cfg.rebalance_frequency ≠ "" ∧ cfg.rebalance_frequency ≠ "none" then
    apply_rebalancing stock_data weights cfg.initial_amount
      cfg.rebalance_frequency
  else
    calculate_portfolio_values stock_data weights cfg.initial_amount

/-- `BacktestService.run_backtest` over already-fetched stock data; every
failure inside the run is converted to a `failed` result. -/
def run_backtest (sqrtf : ℚ → ℚ) (powf : ℚ → ℚ → ℚ)
    (cfg : BacktestConfig) (stock_data : StockData) : BacktestResult :=
  match _validate_config cfg with
  | .error e => failedResult (.config e)
  | .ok _ =>
    let portfolio_values := backtestPortfolioValues cfg stock_data
    match calculate_risk_metrics sqrtf powf portfolio_values with
    | .error msg => failedResult (.numeric msg)
    | .ok rm =>
      match calculate_annual_returns sqrtf portfolio_values with
      | .error msg => failedResult (.numeric msg)
      | .ok annual =>
        { status := "completed", error := none,
          performance_summary := some
            { start_value := cfg.initial_amount,
              end_value :=
                ((portfolio_values.getLast?).map (fun p => p.value)).getD 0,
              total_return_pct := (rm.map (fun r => r.total_return)).getD 0,
              annualized_return_pct :=
                (rm.map (fun r => r.annualized_return)).getD 0 },
          risk_metrics := some (riskSummaryOf rm),
          annual_returns := annual,
          time_series := portfolio_values.take 100 }

/-! ### dca_service.py run wrappers and metrics -/

/-- The `performance` dict of a DCA result (`none` models the `{}` returned
for an empty series). -/
structure DcaMetrics where
  total_invested : ℚ
  final_value : ℚ
  total_return : ℚ
  total_return_pct : ℚ
  average_cost : ℚ
  investment_count : ℕ
  best_return : ℚ
  worst_return : ℚ
  current_return : ℚ
deriving DecidableEq

/-- `DCAService._calculate_dca_metrics` (for a conditional run the first row
carries a `triggered` key and `investment_count` counts triggered rows; for
a periodic run the source falls back to `results.get('investment_schedule',
[])`, a key that never exists, so the count is 0). -/
def _calculate_dca_metrics (results : DcaResult) : Option DcaMetrics :=
  match results.time_series with
  | [] => none
  | p0 :: _ =>
    let ts := results.time_series
    let total_invested := results.total_invested
    let final_value := (ts.getLastD p0).value
    let out : DcaMetrics :=
      { total_invested := total_invested, final_value := final_value,
        total_return := final_value - total_invested,
        total_return_pct :=
          if total_invested > 0 then
            (final_value - total_invested) / total_invested * 100
          else 0,
        average_cost := total_invested / (ts.length : ℚ),
        investment_count :=
          if p0.triggered.isSome then
            ts.countP (fun t => t.triggered.getD false)
          else 0,
        best_return :=
          (ts.map (fun t => t.return_pct)).foldl max p0.return_pct,
        worst_return :=
          (ts.map (fun t => t.return_pct)).foldl min p0.return_pct,
        current_return := (ts.getLastD p0).return_pct }
    some out

/-- The result dict of the two DCA runs (ids/timestamps omitted as
nondeterministic externals). -/
structure DcaRunResult where
  status : String
  error : Option String
  total_investments : ℕ
  total_triggers : ℕ
  performance : Option DcaMetrics
  investment_schedule : List Date
  triggers : List Trigger
  time_series : List DcaPoint
deriving DecidableEq

/-- The data check `not stock_data or all(not data …)`. -/
def noValidData (stock_data : StockData) : Bool :=
  stock_data.isEmpty || stock_data.all (fun p => p.2.isEmpty)

/-- The failure result of a DCA run. -/
def dcaFailed (msg : String) : DcaRunResult :=
  { status := "failed", error := some msg, total_investments := 0,
    total_triggers := 0, performance := none, investment_schedule := [],
    triggers := [], time_series := [] }

/-- A periodic-DCA configuration. -/
structure DcaConfig where
  assets : List DcaAsset
  start_date : Date
  end_date : Date
  initial_amount : ℚ
  investment_amount : ℚ
  frequency : String
  frequency_config : FrequencyConfig

/-- `DCAService.run_periodic_dca` over already-fetched stock data. -/
def run_periodic_dca (cfg : DcaConfig) (stock_data : StockData) :
    DcaRunResult :=
  if noValidData stock_data then dcaFailed "No valid stock data retrieved"
  else
    let investment_dates := _generate_investment_dates cfg.start_date
      cfg.end_date cfg.frequency cfg.frequency_config
    let results := _calculate_dca_returns stock_data cfg.assets
      cfg.initial_amount cfg.investment_amount investment_dates
    { status := "completed", error := none,
      total_investments := investment_dates.length,
      total_triggers := 0,
      performance := _calculate_dca_metrics results,
      investment_schedule := investment_dates.take 20,
      triggers := [],
      time_series := results.time_series.take 100 }

/-- `trigger_dict[date]`: the dict comprehension keeps the *last* trigger
with a given date. -/
def triggerAt (triggers : List Trigger) (date : Date) : Option Trigger :=
  triggers.reverse.find? (fun t => t.date == date)

/-- One iteration of the `for date in all_dates` loop of
`_calculate_conditional_dca_returns`. -/
def condDcaStep (stock_data : StockData) (triggers : List Trigger)
    (st : List (DcaAsset × ℚ) × ℚ × List DcaPoint) (date : Date) :
    List (DcaAsset × ℚ) × ℚ × List DcaPoint :=
  let tr := triggerAt triggers date
  let shares :=
    match tr with
    | some t => dcaBuy stock_data t.amount date st.1
    | none => st.1
  let invested :=
    match tr with
    | some t => st.2.1 + t.amount
    | none => st.2.1
  let value := dcaValueAt stock_data shares date
  let pt : DcaPoint :=
    { date := date, invested := invested, value := value,
      return_pct :=
        if invested > 0 then (value - invested) / invested * 100 else 0,
      triggered := some tr.isSome }
  (shares, invested, st.2.2 ++ [pt])

/-- `DCAService._calculate_conditional_dca_returns`. -/
def _calculate_conditional_dca_returns (stock_data : StockData)
    (assets : List DcaAsset) (initial_amount : ℚ)
    (triggers : List Trigger) : DcaResult :=
  let all_dates := allDates stock_data
  let shares1 :=
    dcaInitialShares stock_data assets initial_amount all_dates.head?
  let final := all_dates.foldl (condDcaStep stock_data triggers)
    (shares1, initial_amount, [])
  { time_series := final.2.2,
    final_shares := final.1.map (fun p => (p.1.symbol, p.2)),
    total_invested := final.2.1 }

/-- A conditional-DCA configuration. -/
structure CondDcaConfig where
  assets : List DcaAsset
  start_date : Date
  end_date : Date
  initial_amount : ℚ
  conditions : List Condition

/-- `DCAService.run_conditional_dca` over already-fetched stock data. -/
def run_conditional_dca (cfg : CondDcaConfig) (stock_data : StockData) :
    DcaRunResult :=
  if noValidData stock_data then dcaFailed "No valid stock data retrieved"
  else
    let triggers := _detect_condition_triggers stock_data cfg.conditions
    let results := _calculate_conditional_dca_returns stock_data cfg.assets
      cfg.initial_amount triggers
    { status := "completed", error := none,
      total_investments := 0,
      total_triggers := triggers.length,
      performance := _calculate_dca_metrics results,
      investment_schedule := [],
      triggers := triggers.take 20,
      time_series := results.time_series.take 100 }

/-! ## Lemmas and theorems -/


/-- Derived boolean equality on dates is decidable propositional equality
(used to let `simp` evaluate date comparisons on concrete data). -/
lemma date_beq_eq (a b : Date) : (a == b) = decide (a = b) := rfl

/-! ### Lemmas for C4 -/

lemma drawdownStep_peak (st : DrawdownState) (iv : ℕ × ℚ) :
    (drawdownStep st iv).peak = if iv.2 > st.peak then iv.2 else st.peak := by
  unfold drawdownStep
  dsimp only
  split_ifs <;> rfl

lemma drawdownStep_maxDd (st : DrawdownState) (iv : ℕ × ℚ) :
    (drawdownStep st iv).maxDd =
      (if (if (if iv.2 > st.peak then iv.2 else st.peak) > 0 then
            ((if iv.2 > st.peak then iv.2 else st.peak) - iv.2)
              / (if iv.2 > st.peak then iv.2 else st.peak) * 100
          else 0) > st.maxDd then
        (if (if iv.2 > st.peak then iv.2 else st.peak) > 0 then
            ((if iv.2 > st.peak then iv.2 else st.peak) - iv.2)
              / (if iv.2 > st.peak then iv.2 else st.peak) * 100
          else 0)
      else st.maxDd) := by
  unfold drawdownStep
  dsimp only
  split_ifs <;> rfl

lemma drawdownStep_maxDd_nonneg (st : DrawdownState) (iv : ℕ × ℚ)
    (h : 0 ≤ st.maxDd) : 0 ≤ (drawdownStep st iv).maxDd := by
  rw [drawdownStep_maxDd]
  split_ifs <;> first | exact h | linarith

lemma foldl_drawdownStep_maxDd_nonneg (l : List (ℕ × ℚ)) (st : DrawdownState)
    (h : 0 ≤ st.maxDd) : 0 ≤ (l.foldl drawdownStep st).maxDd := by
  induction l generalizing st with
  | nil => exact h
  | cons a l ih => exact ih _ (drawdownStep_maxDd_nonneg st a h)

lemma drawdownStep_zero (st : DrawdownState) (iv : ℕ × ℚ)
    (hpa : st.peak ≤ iv.2) (hdd : st.maxDd = 0) :
    (drawdownStep st iv).maxDd = 0 ∧ (drawdownStep st iv).peak = iv.2 := by
  have hpk : (if iv.2 > st.peak then iv.2 else st.peak) = iv.2 := by
    split
    · rfl
    · rename_i h
      exact le_antisymm hpa (le_of_not_lt h)
  have hdd0 : (if (if iv.2 > st.peak then iv.2 else st.peak) > 0 then
      ((if iv.2 > st.peak then iv.2 else st.peak) - iv.2)
        / (if iv.2 > st.peak then iv.2 else st.peak) * 100
    else 0) = 0 := by
    rw [hpk]
    split <;> simp
  constructor
  · rw [drawdownStep_maxDd, hdd0, hdd]
    simp
  · rw [drawdownStep_peak, hpk]

lemma foldl_drawdownStep_monotone_zero (l : List (ℕ × ℚ)) (st : DrawdownState)
    (hchain : l.Chain' (fun a b => a.2 ≤ b.2))
    (hpeak : ∀ a ∈ l.head?, st.peak ≤ a.2)
    (hdd : st.maxDd = 0) : (l.foldl drawdownStep st).maxDd = 0 := by
  induction l generalizing st with
  | nil => exact hdd
  | cons a l ih =>
    have hpa : st.peak ≤ a.2 := hpeak a (by simp)
    have hstep := drawdownStep_zero st a hpa hdd
    rw [List.foldl_cons]
    refine ih _ hchain.tail ?_ hstep.1
    intro b hb
    rcases l with _ | ⟨c, l⟩
    · simp at hb
    · simp only [List.head?_cons, Option.mem_some_iff] at hb
      subst hb
      rw [hstep.2]
      exact hchain.rel_head

/-- C4: the maximum-drawdown percentage is never positive, and it is exactly 0
on a non-decreasing value series. -/
theorem max_drawdown_nonpositive_and_zero_on_monotone (values : List ℚ) :
    (calculate_max_drawdown values).1 ≤ 0 ∧
      (values.Chain' (· ≤ ·) → (calculate_max_drawdown values).1 = 0) := by
  unfold calculate_max_drawdown
  split
  · simp
  · rename_i hlen
    constructor
    · have h0 := foldl_drawdownStep_maxDd_nonneg values.enum
        ⟨values.headD 0, 0, 0, 0, 0⟩ le_rfl
      simpa using h0
    · intro hmono
      have hchain : values.enum.Chain' (fun a b => a.2 ≤ b.2) := by
        have hmap : values.enum.map Prod.snd = values := List.enum_map_snd values
        rw [← hmap] at hmono
        exact (List.chain'_map Prod.snd).mp hmono
      have hz := foldl_drawdownStep_monotone_zero values.enum
        ⟨values.headD 0, 0, 0, 0, 0⟩ hchain ?_ rfl
      · dsimp only
        rw [hz]
        exact neg_zero
      · intro a ha
        rcases values with _ | ⟨v, vs⟩
        · simp at hlen
        · simp only [List.enum, List.enumFrom, List.head?,
            Option.mem_some_iff] at ha
          subst ha
          simp [List.headD]

/-- Witness for C4 at a concrete non-decreasing series. -/
theorem max_drawdown_nonpositive_and_zero_on_monotone_witness :
    (calculate_max_drawdown [1, 2, 3]).1 = 0 :=
  (max_drawdown_nonpositive_and_zero_on_monotone [1, 2, 3]).2
    (by norm_num [List.chain'_cons])

/-- C10: both return calculators short-circuit to 0 on degenerate inputs: a
non-positive start value (and, for CAGR, a non-positive year count) yields
`.ok 0` — no division fault — and the result is the same for every power
implementation `powf`, so no power of a non-positive base is evaluated. -/
theorem degenerate_returns_zero (start_value end_value years : ℚ) :
    (start_value ≤ 0 → calculate_total_return start_value end_value = .ok 0) ∧
      (start_value ≤ 0 ∨ years ≤ 0 → ∀ powf : ℚ → ℚ → ℚ,
        calculate_annualized_return powf start_value end_value years = .ok 0) := by
  constructor
  · intro h
    unfold calculate_total_return
    simp [h]
  · intro h powf
    unfold calculate_annualized_return
    simp [h]

/-- Witness for C10 at concrete degenerate inputs. -/
theorem degenerate_returns_zero_witness :
    calculate_total_return (-5) 7 = .ok 0 ∧
      calculate_annualized_return (fun a _ => a) 3 7 0 = .ok 0 :=
  ⟨(degenerate_returns_zero (-5) 7 1).1 (by norm_num),
   (degenerate_returns_zero 3 7 0).2 (Or.inr le_rfl) (fun a _ => a)⟩

lemma divE_bind_ok (a b c : ℚ) (h : b ≠ 0) :
    (do
      let q ← divE a b
      Except.ok (q * c) : Except String ℚ) = .ok (a / b * c) := by
  unfold divE
  rw [if_neg h]
  rfl

/-- C5: the Sharpe computation returns 0 whenever the (sample) standard
deviation of the excess returns is 0, the Sortino computation returns 0
whenever the root-mean-square of the negative part of `r - target/252` is 0,
and both computations always return `.ok` — no division fault ever
propagates. -/
theorem sharpe_sortino_zero_denominator (sqrtf : ℚ → ℚ) (returns : List ℚ)
    (risk_free_rate target_return : ℚ) :
    (npStd1 sqrtf (returns.map (fun r => r - risk_free_rate / 252)) = 0 →
        calculate_sharpe_ratio sqrtf returns risk_free_rate = .ok 0) ∧
      (downsideStd sqrtf returns target_return = 0 →
        calculate_sortino_ratio sqrtf returns risk_free_rate target_return
          = .ok 0) ∧
      (∃ v, calculate_sharpe_ratio sqrtf returns risk_free_rate = .ok v) ∧
      (∃ w, calculate_sortino_ratio sqrtf returns risk_free_rate target_return
        = .ok w) := by
  refine ⟨?_, ?_, ?_, ?_⟩
  · intro h
    unfold calculate_sharpe_ratio
    split
    · rfl
    · simp [h]
  · intro h
    unfold calculate_sortino_ratio
    split
    · rfl
    · simp [h]
  · unfold calculate_sharpe_ratio
    split
    · exact ⟨0, rfl⟩
    · dsimp only
      split
      · exact ⟨0, rfl⟩
      · rename_i hne
        exact ⟨_, divE_bind_ok _ _ _ hne⟩
  · unfold calculate_sortino_ratio
    split
    · exact ⟨0, rfl⟩
    · dsimp only
      split
      · exact ⟨0, rfl⟩
      · rename_i hne
        exact ⟨_, divE_bind_ok _ _ _ hne⟩

/-- Witness for C5 at concrete inputs with zero denominators. -/
theorem sharpe_sortino_zero_denominator_witness :
    calculate_sharpe_ratio (fun _ => 0) [1, 1] 0 = .ok 0 ∧
      calculate_sortino_ratio (fun _ => 0) [1, 1] 0 0 = .ok 0 :=
  ⟨(sharpe_sortino_zero_denominator (fun _ => 0) [1, 1] 0 0).1 rfl,
   (sharpe_sortino_zero_denominator (fun _ => 0) [1, 1] 0 0).2.1 rfl⟩

/-- Sanity anchor: 2024-01-01 was a Monday. -/
lemma weekday_jan1_2024 : Date.weekday ⟨2024, 1, 1⟩ = 0 := by decide

/-! ### C1 -/

lemma dcaStep_invested (stock_data : StockData) (investment_amount : ℚ)
    (investment_dates : List Date)
    (st : List (DcaAsset × ℚ) × ℚ × List DcaPoint) (date : Date) :
    (dcaStep stock_data investment_amount investment_dates st date).2.1 =
      if date ∈ investment_dates then st.2.1 + investment_amount
      else st.2.1 := by
  unfold dcaStep
  dsimp only

lemma foldl_dcaStep_invested (stock_data : StockData)
    (investment_amount : ℚ) (investment_dates : List Date)
    (dates : List Date) (st : List (DcaAsset × ℚ) × ℚ × List DcaPoint) :
    ((dates.foldl (dcaStep stock_data investment_amount investment_dates)
        st)).2.1 =
      st.2.1 + investment_amount *
        (dates.countP (fun d => decide (d ∈ investment_dates)) : ℕ) := by
  induction dates generalizing st with
  | nil => simp
  | cons d ds ih =>
    rw [List.foldl_cons, ih, dcaStep_invested, List.countP_cons]
    by_cases h : d ∈ investment_dates
    · simp [h]
      ring
    · simp [h]

/-- C1 (amended): the total invested reported by `_calculate_dca_returns`
equals the initial amount plus the per-contribution amount multiplied by the
number of trading dates (dates present in the stock data) that lie in the
contribution schedule — scheduled dates that are not trading dates
contribute nothing. -/
theorem dca_total_invested (stock_data : StockData) (assets : List DcaAsset)
    (initial_amount investment_amount : ℚ)
    (investment_dates : List Date) :
    (_calculate_dca_returns stock_data assets initial_amount
        investment_amount investment_dates).total_invested =
      initial_amount + investment_amount *
        ((allDates stock_data).countP
          (fun d => decide (d ∈ investment_dates)) : ℕ) := by
  unfold _calculate_dca_returns
  dsimp only
  rw [foldl_dcaStep_invested]

lemma append_trigger_inv (conds : List Condition) (acc : List TriggerI)
    (tn : TriggerI) (cur : Date) (c : Condition) (cd : ℤ)
    (hidx : conds[tn.condIdx]? = some c)
    (hcd : cd = effCooldown c)
    (hdate : tn.date = cur)
    (hok : (match acc.getLast? with
            | none => true
            | some t => _check_cooldown cur t.date cd) = true)
    (hchain : acc.Chain' (TrigGap conds))
    (hlast : ∀ t ∈ acc, t.date.toDays ≤ cur.toDays) :
    (acc ++ [tn]).Chain' (TrigGap conds) ∧
      ∀ t ∈ acc ++ [tn], t.date.toDays ≤ cur.toDays := by
  constructor
  · rw [List.chain'_append]
    refine ⟨hchain, List.chain'_singleton _, ?_⟩
    intro x hx y hy
    simp only [List.head?_cons, Option.mem_def, Option.some.injEq] at hy
    subst hy
    have hx2 : acc.getLast? = some x := hx
    obtain ⟨hne, hx'⟩ := List.mem_getLast?_eq_getLast hx
    have hxacc : x ∈ acc := hx' ▸ List.getLast_mem hne
    simp only [hx2, _check_cooldown, decide_eq_true_eq] at hok
    constructor
    · rw [hdate]
      exact hlast x hxacc
    · intro c' hc'
      rw [hidx] at hc'
      have hcc : c = c' := by
        injection hc'
      rw [hdate, ← hcc, ← hcd]
      exact hok
  · intro t ht
    rcases List.mem_append.mp ht with h | h
    · exact hlast t h
    · simp only [List.mem_singleton] at h
      subst h
      rw [hdate]

lemma condStep_inv (conds : List Condition) (seen : List (Date × ℚ))
    (cur prev : Date × ℚ) (acc : List TriggerI) (ci : ℕ × Condition)
    (hci : conds[ci.1]? = some ci.2)
    (hchain : acc.Chain' (TrigGap conds))
    (hlast : ∀ t ∈ acc, t.date.toDays ≤ cur.1.toDays) :
    (condStep seen cur prev acc ci).Chain' (TrigGap conds) ∧
      ∀ t ∈ condStep seen cur prev acc ci,
        t.date.toDays ≤ cur.1.toDays := by
  rcases ci with ⟨idx, c⟩
  cases c with
  | price_drop dp amt cds =>
    simp only [condStep]
    split_ifs with h1 h2
    · exact append_trigger_inv conds acc
        ⟨idx, cur.1, .price_drop, (prev.2 - cur.2) / prev.2 * 100, dp, amt⟩
        cur.1 (.price_drop dp amt cds) (cds.getD 0) hci rfl rfl h2 hchain hlast
    · exact ⟨hchain, hlast⟩
    · exact ⟨hchain, hlast⟩
  | drawdown th lb amt cds =>
    simp only [condStep]
    split_ifs with h1 h2
    · exact append_trigger_inv conds acc
        ⟨idx, cur.1, .drawdown,
          (_get_max_price seen (seen.length - 1) (lb.getD 252) - cur.2)
            / _get_max_price seen (seen.length - 1) (lb.getD 252) * 100,
          th, amt.getD 1000⟩
        cur.1 (.drawdown th lb amt cds) 7 hci rfl rfl h2 hchain hlast
    · exact ⟨hchain, hlast⟩
    · exact ⟨hchain, hlast⟩

lemma foldl_condStep_inv (conds : List Condition) (seen : List (Date × ℚ))
    (cur prev : Date × ℚ) (cl : List (ℕ × Condition)) :
    ∀ (acc : List TriggerI),
      (∀ ci ∈ cl, conds[ci.1]? = some ci.2) →
      acc.Chain' (TrigGap conds) →
      (∀ t ∈ acc, t.date.toDays ≤ cur.1.toDays) →
      (cl.foldl (condStep seen cur prev) acc).Chain' (TrigGap conds) ∧
        ∀ t ∈ cl.foldl (condStep seen cur prev) acc,
          t.date.toDays ≤ cur.1.toDays := by
  induction cl with
  | nil =>
    intro acc _ hc hl
    exact ⟨hc, hl⟩
  | cons ci cl ih =>
    intro acc hcl hc hl
    have hstep := condStep_inv conds seen cur prev acc ci (hcl ci (by simp))
      hc hl
    rw [List.foldl_cons]
    exact ih _ (fun x hx => hcl x (by simp [hx])) hstep.1 hstep.2

lemma detectGo_inv (conds : List Condition) (cle : List (ℕ × Condition))
    (hcl : ∀ ci ∈ cle, conds[ci.1]? = some ci.2) :
    ∀ (rest seen : List (Date × ℚ)) (prev : Date × ℚ)
      (acc : List TriggerI),
      List.Chain' (fun a b => a.1.toDays ≤ b.1.toDays) (prev :: rest) →
      acc.Chain' (TrigGap conds) →
      (∀ t ∈ acc, t.date.toDays ≤ prev.1.toDays) →
      (detectGo cle seen prev rest acc).Chain' (TrigGap conds) := by
  intro rest
  induction rest with
  | nil =>
    intro seen prev acc _ hc _
    exact hc
  | cons cur rest ih =>
    intro seen prev acc hsort hc hl
    have hpc : prev.1.toDays ≤ cur.1.toDays := hsort.rel_head
    have hl' : ∀ t ∈ acc, t.date.toDays ≤ cur.1.toDays :=
      fun t ht => le_trans (hl t ht) hpc
    have hfold := foldl_condStep_inv conds (seen ++ [cur]) cur prev cle acc
      hcl hc hl'
    exact ih (seen ++ [cur]) cur _ hsort.tail hfold.1 hfold.2

lemma pairwise_dates_filterMap {β : Type} (f : Date → Option (Date × β))
    (hf : ∀ d x, f d = some x → x.1 = d) :
    ∀ (l : List Date), l.Pairwise dateLe →
      (l.filterMap f).Pairwise (fun a b => a.1.toDays ≤ b.1.toDays) := by
  intro l
  induction l with
  | nil =>
    intro _
    simp
  | cons d l ih =>
    intro hp
    cases hq : f d with
    | none =>
      rw [List.filterMap_cons, hq]
      exact ih hp.of_cons
    | some x =>
      rw [List.filterMap_cons, hq]
      refine List.Pairwise.cons ?_ (ih hp.of_cons)
      intro y hy
      obtain ⟨a, ha, hfa⟩ := List.mem_filterMap.mp hy
      have h1 : x.1 = d := hf d x hq
      have h2 : y.1 = a := hf a y hfa
      have h3 : dateLe d a := (List.pairwise_cons.mp hp).1 a ha
      rw [h1, h2]
      exact h3

lemma portfolio_prices_chain (stock_data : StockData) :
    List.Chain' (fun a b => a.1.toDays ≤ b.1.toDays)
      (_calculate_portfolio_prices stock_data) := by
  apply List.Pairwise.chain'
  apply pairwise_dates_filterMap _ ?_ _
    (List.sorted_insertionSort dateLe (collectDates stock_data).dedup)
  intro d x h
  dsimp only at h
  split at h
  · injection h with h2
    rw [← h2]
  · exact absurd h (by simp)

/-- C2 (amended): in `_detect_condition_triggers`, any two triggers emitted
for the same condition are at least that condition's *enforced* cooldown
apart (in calendar days): the configured `cooldown_days` (default 0) for a
`price_drop` condition, but a fixed 7 days for a `drawdown` condition — the
source ignores a drawdown condition's configured `cooldown_days`. (The
cooldown is in fact checked against the most recent trigger of any
condition, which only increases the same-condition spacing.) -/
theorem conditional_dca_cooldown (stock_data : StockData)
    (conds : List Condition) (i j : ℕ) (ti tj : TriggerI) (hij : i < j)
    (hi : (detectTriggersIdx conds
      (_calculate_portfolio_prices stock_data)).get? i = some ti)
    (hj : (detectTriggersIdx conds
      (_calculate_portfolio_prices stock_data)).get? j = some tj)
    (hsame : ti.condIdx = tj.condIdx)
    (c : Condition) (hc : conds[tj.condIdx]? = some c) :
    ((tj.date.toDays : ℤ) - (ti.date.toDays : ℤ)) ≥ effCooldown c := by
  have hchain : (detectTriggersIdx conds
      (_calculate_portfolio_prices stock_data)).Chain' (TrigGap conds) := by
    have hpp := portfolio_prices_chain stock_data
    unfold detectTriggersIdx
    cases hcase : _calculate_portfolio_prices stock_data with
    | nil => simp
    | cons p0 rest =>
      rw [hcase] at hpp
      refine detectGo_inv conds conds.enum ?_ rest [p0] p0 [] hpp
        List.chain'_nil (by simp)
      intro ci hci
      exact List.mem_enum_iff_getElem?.mp hci
  have hdates : (detectTriggersIdx conds
      (_calculate_portfolio_prices stock_data)).Pairwise trigDateLe :=
    List.chain'_iff_pairwise.mp (hchain.imp fun a b h => h.1)
  obtain ⟨hilt, hie⟩ := List.get?_eq_some.mp hi
  obtain ⟨hjlt, hje⟩ := List.get?_eq_some.mp hj
  have hgap := List.chain'_iff_get.mp hchain (j - 1) (by omega)
  have hfix : ((detectTriggersIdx conds
      (_calculate_portfolio_prices stock_data)).get
        ⟨j - 1 + 1, by omega⟩) = ((detectTriggersIdx conds
      (_calculate_portfolio_prices stock_data)).get ⟨j, hjlt⟩) := by
    congr 1
    simp only [Fin.mk.injEq]
    omega
  rw [hfix, hje] at hgap
  have hbound := hgap.2 c hc
  have hmono : ti.date.toDays ≤
      ((detectTriggersIdx conds
        (_calculate_portfolio_prices stock_data)).get
          ⟨j - 1, by omega⟩).date.toDays := by
    rcases Nat.lt_or_ge i (j - 1) with h | h
    · have hpw := List.pairwise_iff_get.mp hdates ⟨i, hilt⟩
        ⟨j - 1, by omega⟩ h
      rw [hie] at hpw
      exact hpw
    · have hieq : i = j - 1 := by omega
      subst hieq
      rw [← hie]
    -- in the second case the two gets coincide
  have hcast : (ti.date.toDays : ℤ) ≤
      (((detectTriggersIdx conds
        (_calculate_portfolio_prices stock_data)).get
          ⟨j - 1, by omega⟩).date.toDays : ℤ) := Int.ofNat_le.mpr hmono
  linarith

/-- Concrete evaluation of the trigger detector on a three-day series with a
single drawdown condition configured with `cooldown_days = 30`. -/
lemma detect_drawdown_example :
    detectTriggersIdx [Condition.drawdown 10 none (some 1000) (some 30)]
      (_calculate_portfolio_prices
        [("AAPL", [(⟨2020, 1, 1⟩, 100), (⟨2020, 1, 2⟩, 50),
          (⟨2020, 1, 9⟩, 40)])]) =
      [⟨0, ⟨2020, 1, 2⟩, .drawdown, 50, 10, 1000⟩,
       ⟨0, ⟨2020, 1, 9⟩, .drawdown, 60, 10, 1000⟩] := by
  have hdates : allDates
      [("AAPL", [(⟨2020, 1, 1⟩, 100), (⟨2020, 1, 2⟩, 50),
        (⟨2020, 1, 9⟩, 40)])] =
      [⟨2020, 1, 1⟩, ⟨2020, 1, 2⟩, ⟨2020, 1, 9⟩] := by decide
  have hpp : _calculate_portfolio_prices
      [("AAPL", [(⟨2020, 1, 1⟩, 100), (⟨2020, 1, 2⟩, 50),
        (⟨2020, 1, 9⟩, 40)])] =
      [(⟨2020, 1, 1⟩, 100), (⟨2020, 1, 2⟩, 50), (⟨2020, 1, 9⟩, 40)] := by
    unfold _calculate_portfolio_prices
    rw [hdates]
    norm_num [List.filterMap_cons, List.find?, date_beq_eq, Date.mk.injEq]
  rw [hpp]
  norm_num [detectTriggersIdx, detectGo, condStep, _get_max_price,
    _check_cooldown, Date.toDays, daysBeforeMonth, leapsUpto, isLeapYear,
    List.enum, List.enumFrom, date_beq_eq, Date.mk.injEq]

/-- Witness for C2 at a concrete conditional run producing two triggers of
the same (drawdown) condition, exactly 7 calendar days apart. -/
theorem conditional_dca_cooldown_witness :
    (((⟨2020, 1, 9⟩ : Date).toDays : ℤ) -
        ((⟨2020, 1, 2⟩ : Date).toDays : ℤ)) ≥
      effCooldown (Condition.drawdown 10 none (some 1000) (some 30)) :=
  conditional_dca_cooldown
    [("AAPL", [(⟨2020, 1, 1⟩, 100), (⟨2020, 1, 2⟩, 50), (⟨2020, 1, 9⟩, 40)])]
    [Condition.drawdown 10 none (some 1000) (some 30)] 0 1
    ⟨0, ⟨2020, 1, 2⟩, .drawdown, 50, 10, 1000⟩
    ⟨0, ⟨2020, 1, 9⟩, .drawdown, 60, 10, 1000⟩
    (by norm_num)
    (by rw [detect_drawdown_example]
        rfl)
    (by rw [detect_drawdown_example]
        rfl)
    rfl
    (Condition.drawdown 10 none (some 1000) (some 30))
    rfl

/-- C2, as stated in the spec, is false on the code: a `drawdown` condition
configured with `cooldown_days = 30` still emits two triggers only 7
calendar days apart, because the source hard-codes a 7-day cooldown for
drawdown conditions. -/
theorem conditional_dca_cooldown_counterexample :
    (_detect_condition_triggers
        [("AAPL", [(⟨2020, 1, 1⟩, 100), (⟨2020, 1, 2⟩, 50),
          (⟨2020, 1, 9⟩, 40)])]
        [Condition.drawdown 10 none (some 1000) (some 30)]).map
      (fun t => t.date) = [⟨2020, 1, 2⟩, ⟨2020, 1, 9⟩] ∧
      ¬ ((((⟨2020, 1, 9⟩ : Date).toDays : ℤ) -
          ((⟨2020, 1, 2⟩ : Date).toDays : ℤ)) ≥ 30) := by
  constructor
  · rw [_detect_condition_triggers, detect_drawdown_example]
    rfl
  · decide

/-- C1, as stated in the spec, is false on the code: with a monthly schedule
whose single generated date (2020-01-01) is not a trading date, the total
invested stays at the initial amount instead of
`initial_amount + investment_amount * len(schedule)`. -/
theorem dca_total_invested_counterexample :
    (_generate_investment_dates ⟨2020, 1, 1⟩ ⟨2020, 1, 31⟩ "monthly"
        ⟨some 1⟩).length = 1 ∧
      (_calculate_dca_returns
          [("AAPL", [(⟨2020, 1, 2⟩, 100), (⟨2020, 1, 3⟩, 101)])]
          [⟨"AAPL", 100⟩] 1000 100
          (_generate_investment_dates ⟨2020, 1, 1⟩ ⟨2020, 1, 31⟩ "monthly"
            ⟨some 1⟩)).total_invested = 1000 ∧
      (1000 : ℚ) ≠ 1000 + 100 * 1 := by
  refine ⟨by decide, by decide, by norm_num⟩

/-! ### C3 lemmas -/

lemma keyLt_trans {a b c : ℕ × ℕ} (h1 : keyLt a b) (h2 : keyLt b c) :
    keyLt a c := by
  unfold keyLt at *
  omega

lemma keyLt_asymm {a b : ℕ × ℕ} (h : keyLt a b) : ¬ keyLt b a := by
  unfold keyLt at *
  omega

lemma not_keyLt_lt_trans {a b c : ℕ × ℕ} (h1 : ¬ keyLt a b)
    (h2 : keyLt a c) : keyLt b c := by
  unfold keyLt at *
  omega

lemma keyLt_irrefl (a : ℕ × ℕ) : ¬ keyLt a a := by
  unfold keyLt
  omega

lemma should_rebalance_iff (d r : Date) (frequency : String)
    (hf : frequency = "yearly" ∨ frequency = "quarterly" ∨
      frequency = "monthly") :
    _should_rebalance d r frequency = true ↔
      keyLt (periodKey frequency r) (periodKey frequency d) := by
  rcases hf with rfl | rfl | rfl <;>
    simp [_should_rebalance, periodKey, keyLt] <;> omega

lemma rebStep_lastRebalance (stock_data : StockData)
    (weights : List (String × ℚ)) (frequency : String) (st : RebState)
    (date : Date) :
    (rebStep stock_data weights frequency st date).lastRebalance =
      if _should_rebalance date st.lastRebalance frequency then date
      else st.lastRebalance := by
  unfold rebStep
  dsimp only
  split_ifs <;> rfl

lemma rebStep_history (stock_data : StockData)
    (weights : List (String × ℚ)) (frequency : String) (st : RebState)
    (date : Date) :
    (rebStep stock_data weights frequency st date).history =
      st.history ++
        (if _should_rebalance date st.lastRebalance frequency then [date]
         else []) := by
  unfold rebStep
  dsimp only
  split_ifs <;> simp

lemma rebStep_inv (stock_data : StockData) (weights : List (String × ℚ))
    (frequency : String) (st : RebState) (date : Date)
    (hf : frequency = "yearly" ∨ frequency = "quarterly" ∨
      frequency = "monthly")
    (hinv : RebInv frequency st) :
    RebInv frequency (rebStep stock_data weights frequency st date) := by
  have hh := rebStep_history stock_data weights frequency st date
  have hl := rebStep_lastRebalance stock_data weights frequency st date
  by_cases hsr : _should_rebalance date st.lastRebalance frequency = true
  · have hkey := (should_rebalance_iff date st.lastRebalance frequency
      hf).mp hsr
    rw [RebInv, hh, hl, if_pos hsr, if_pos hsr]
    constructor
    · rw [List.pairwise_append]
      refine ⟨hinv.1, by simp, ?_⟩
      intro a ha b hb
      simp only [List.mem_singleton] at hb
      subst hb
      exact not_keyLt_lt_trans (hinv.2 a ha) hkey
    · intro h hmem
      rcases List.mem_append.mp hmem with h1 | h1
      · exact keyLt_asymm (not_keyLt_lt_trans (hinv.2 h h1) hkey)
      · simp only [List.mem_singleton] at h1
        subst h1
        exact keyLt_irrefl _
  · rw [RebInv, hh, hl, if_neg hsr, if_neg hsr]
    simpa using hinv

lemma foldl_rebStep_inv (stock_data : StockData)
    (weights : List (String × ℚ)) (frequency : String)
    (hf : frequency = "yearly" ∨ frequency = "quarterly" ∨
      frequency = "monthly") :
    ∀ (l : List Date) (st : RebState), RebInv frequency st →
      RebInv frequency (l.foldl (rebStep stock_data weights frequency) st)
  | [], st, h => h
  | d :: l, st, h =>
    foldl_rebStep_inv stock_data weights frequency hf l _
      (rebStep_inv stock_data weights frequency st d hf h)

lemma foldl_rebStep_history_extra (stock_data : StockData)
    (weights : List (String × ℚ)) (frequency : String) :
    ∀ (l : List Date) (st : RebState),
      ∃ ex, (l.foldl (rebStep stock_data weights frequency) st).history =
        st.history ++ ex ∧ ∀ d ∈ ex, d ∈ l := by
  intro l
  induction l with
  | nil => exact fun st => ⟨[], by simp⟩
  | cons d l ih =>
    intro st
    obtain ⟨ex, hex, hsub⟩ := ih (rebStep stock_data weights frequency st d)
    refine ⟨(if _should_rebalance d st.lastRebalance frequency then [d]
      else []) ++ ex, ?_, ?_⟩
    · rw [List.foldl_cons, hex, rebStep_history, List.append_assoc]
    · intro x hx
      rcases List.mem_append.mp hx with h1 | h1
      · split_ifs at h1
        · simp only [List.mem_singleton] at h1
          subst h1
          exact List.mem_cons_self _ _
        · simp at h1
      · exact List.mem_cons_of_mem _ (hsub x h1)

lemma allDates_nodup (stock_data : StockData) :
    (allDates stock_data).Nodup :=
  (List.perm_insertionSort dateLe (collectDates stock_data).dedup).nodup_iff.mpr
    (List.nodup_dedup _)

/-- C3: under a periodic-rebalance policy (yearly, quarterly, or monthly):
(1) the period keys of the recorded rebalance dates are strictly increasing,
so no two rebalances ever happen in the same calendar period — in particular
never on a later day of the same period as the previous rebalance date; and
(2) a trading date triggers a rebalance exactly when its calendar period is
strictly later than the period of the previous rebalance date at the moment
it is processed (one rebalance per boundary crossing). -/
theorem periodic_rebalance_once_per_period (stock_data : StockData)
    (weights : List (String × ℚ)) (initial_amount : ℚ) (frequency : String)
    (hf : frequency = "yearly" ∨ frequency = "quarterly" ∨
      frequency = "monthly") :
    ((_calculate_periodic_rebalance stock_data weights initial_amount
        frequency).history.Pairwise
      (fun a b => keyLt (periodKey frequency a) (periodKey frequency b))) ∧
    (∀ (first : Date) (pre suff : List Date) (d : Date),
      allDates stock_data = pre ++ d :: suff →
      (pre ++ d :: suff).head? = some first →
      (d ∈ (_calculate_periodic_rebalance stock_data weights initial_amount
          frequency).history ↔
        keyLt
          (periodKey frequency
            ((rebRun stock_data weights initial_amount frequency first
              pre).lastRebalance))
          (periodKey frequency d))) := by
  constructor
  · unfold _calculate_periodic_rebalance
    cases hcase : (allDates stock_data).head? with
    | none => simp
    | some first =>
      exact (foldl_rebStep_inv stock_data weights frequency hf
        (allDates stock_data) _ ⟨List.Pairwise.nil, by simp⟩).1
  · intro first pre suff d hdec hhead
    have hnd := allDates_nodup stock_data
    rw [hdec] at hnd
    have hdpre : d ∉ pre := by
      have := (List.nodup_append.mp hnd).2.2
      intro hmem
      exact this hmem (List.mem_cons_self d suff)
    have hdsuff : d ∉ suff :=
      (List.nodup_cons.mp (List.nodup_append.mp hnd).2.1).1
    have hcalc : _calculate_periodic_rebalance stock_data weights
        initial_amount frequency =
        rebRun stock_data weights initial_amount frequency first
          (pre ++ d :: suff) := by
      unfold _calculate_periodic_rebalance
      rw [hdec, hhead]
    rw [hcalc]
    unfold rebRun
    rw [List.foldl_append, List.foldl_cons]
    set st1 := pre.foldl (rebStep stock_data weights frequency)
      { shares := initShares stock_data weights initial_amount,
        lastRebalance := first, history := [], points := [] } with hst1
    obtain ⟨ex1, hex1, hsub1⟩ := foldl_rebStep_history_extra stock_data
      weights frequency pre
      { shares := initShares stock_data weights initial_amount,
        lastRebalance := first, history := [], points := [] }
    obtain ⟨ex2, hex2, hsub2⟩ := foldl_rebStep_history_extra stock_data
      weights frequency suff (rebStep stock_data weights frequency st1 d)
    rw [hex2, rebStep_history]
    constructor
    · intro hmem
      rcases List.mem_append.mp hmem with h1 | h1
      · rcases List.mem_append.mp h1 with h2 | h2
        · rw [hst1, hex1] at h2
          simp only [List.nil_append] at h2
          exact absurd (hsub1 d h2) hdpre
        · split_ifs at h2 with hsr
          · exact (should_rebalance_iff d st1.lastRebalance frequency
              hf).mp hsr
          · simp at h2
      · exact absurd (hsub2 d h1) hdsuff
    · intro hkey
      have hsr : _should_rebalance d st1.lastRebalance frequency = true :=
        (should_rebalance_iff d st1.lastRebalance frequency hf).mpr hkey
      rw [if_pos hsr]
      simp

/-- Witness for C3 at a concrete monthly run: the first trading date of a
new month (2020-02-03, after a January previous-rebalance date) is recorded
as a rebalance. -/
theorem periodic_rebalance_once_per_period_witness :
    (⟨2020, 2, 3⟩ : Date) ∈ (_calculate_periodic_rebalance
      [("A", [(⟨2020, 1, 1⟩, 10), (⟨2020, 2, 3⟩, 10), (⟨2020, 2, 4⟩, 10)])]
      [("A", 100)] 1000 "monthly").history := by
  have h := (periodic_rebalance_once_per_period
    [("A", [(⟨2020, 1, 1⟩, 10), (⟨2020, 2, 3⟩, 10), (⟨2020, 2, 4⟩, 10)])]
    [("A", 100)] 1000 "monthly" (Or.inr (Or.inr rfl))).2
    ⟨2020, 1, 1⟩ [⟨2020, 1, 1⟩] [⟨2020, 2, 4⟩] ⟨2020, 2, 3⟩
    (by decide) rfl
  exact h.mpr (by decide)

/-! ### C7 lemmas -/

lemma checkSupportLevel_spec (fmt : String → ℚ → String) (cp : ℚ)
    (ind : Indicators) :
    (ruleSupport cp ind = true →
      (checkSupportLevel fmt cp ind).triggered = true ∧
        (checkSupportLevel fmt cp ind).reason_code = .SUPPORT_LEVEL) ∧
    (ruleSupport cp ind = false →
      checkSupportLevel fmt cp ind = notTriggered) := by
  constructor
  · intro htrue
    unfold checkSupportLevel
    cases hs : ind.support_level with
    | none =>
      exfalso
      unfold ruleSupport at htrue
      rw [hs] at htrue
      simp at htrue
    | some s =>
      dsimp only
      split_ifs with hc
      · exact ⟨rfl, rfl⟩
      · exfalso
        unfold ruleSupport at htrue
        rw [hs] at htrue
        simp [hc] at htrue
  · intro hfalse
    unfold checkSupportLevel
    cases hs : ind.support_level with
    | none => rfl
    | some s =>
      dsimp only
      split_ifs with hc
      · exfalso
        unfold ruleSupport at hfalse
        rw [hs] at hfalse
        simp [hc] at hfalse
      · rfl

lemma checkMacd_spec (fmt : String → ℚ → String) (cp : ℚ)
    (ind : Indicators) :
    (ruleMacd ind = true →
      (checkMacd fmt cp ind).triggered = true ∧
        (checkMacd fmt cp ind).reason_code = .MACD_GOLDEN_CROSS) ∧
    (ruleMacd ind = false →
      checkMacd fmt cp ind = checkSupportLevel fmt cp ind) := by
  constructor
  · intro htrue
    unfold checkMacd
    cases hm : ind.macd with
    | none =>
      exfalso
      unfold ruleMacd at htrue
      rw [hm] at htrue
      simp at htrue
    | some macd =>
      cases hsig : ind.macd_signal with
      | none =>
        exfalso
        unfold ruleMacd at htrue
        rw [hm, hsig] at htrue
        simp at htrue
      | some signal =>
        dsimp only
        split_ifs with hc
        · exact ⟨rfl, rfl⟩
        · exfalso
          unfold ruleMacd at htrue
          rw [hm, hsig] at htrue
          simp [hc] at htrue
  · intro hfalse
    unfold checkMacd
    cases hm : ind.macd with
    | none => rfl
    | some macd =>
      cases hsig : ind.macd_signal with
      | none => rfl
      | some signal =>
        dsimp only
        split_ifs with hc
        · exfalso
          unfold ruleMacd at hfalse
          rw [hm, hsig] at hfalse
          simp [hc] at hfalse
        · rfl

lemma checkRsi_spec (fmt : String → ℚ → String) (cp : ℚ)
    (ind : Indicators) (cfg : SignalConfig) :
    (ruleRsi ind cfg = true →
      (checkRsi fmt cp ind cfg).triggered = true ∧
        (checkRsi fmt cp ind cfg).reason_code = .RSI_OVERSOLD) ∧
    (ruleRsi ind cfg = false →
      checkRsi fmt cp ind cfg = checkMacd fmt cp ind) := by
  constructor
  · intro htrue
    unfold checkRsi
    cases hr : ind.rsi with
    | none =>
      exfalso
      unfold ruleRsi at htrue
      rw [hr] at htrue
      simp at htrue
    | some rsi =>
      dsimp only
      split_ifs with hc
      · exact ⟨rfl, rfl⟩
      · exfalso
        unfold ruleRsi at htrue
        rw [hr] at htrue
        simp [hc] at htrue
  · intro hfalse
    unfold checkRsi
    cases hr : ind.rsi with
    | none => rfl
    | some rsi =>
      dsimp only
      split_ifs with hc
      · exfalso
        unfold ruleRsi at hfalse
        rw [hr] at hfalse
        simp [hc] at hfalse
      · rfl

lemma checkVix_spec (fmt : String → ℚ → String) (cp : ℚ)
    (ind : Indicators) (cfg : SignalConfig) :
    (ruleVix ind cfg = true →
      (checkVix fmt cp ind cfg).triggered = true ∧
        (checkVix fmt cp ind cfg).reason_code = .VIX_HIGH) ∧
    (ruleVix ind cfg = false →
      checkVix fmt cp ind cfg = checkRsi fmt cp ind cfg) := by
  constructor
  · intro htrue
    unfold checkVix
    cases hv : ind.vix with
    | none =>
      exfalso
      unfold ruleVix at htrue
      rw [hv] at htrue
      simp at htrue
    | some vix =>
      dsimp only
      split_ifs with hc
      · exact ⟨rfl, rfl⟩
      · exfalso
        unfold ruleVix at htrue
        rw [hv] at htrue
        simp [hc] at htrue
  · intro hfalse
    unfold checkVix
    cases hv : ind.vix with
    | none => rfl
    | some vix =>
      dsimp only
      split_ifs with hc
      · exfalso
        unfold ruleVix at hfalse
        rw [hv] at hfalse
        simp [hc] at hfalse
      · rfl

lemma checkDrawdown_spec (fmt : String → ℚ → String) (cp : ℚ)
    (ind : Indicators) (cfg : SignalConfig) :
    (ruleDrawdown ind cfg = true →
      (checkDrawdown fmt cp ind cfg).triggered = true ∧
        (checkDrawdown fmt cp ind cfg).reason_code = .DRAWDOWN) ∧
    (ruleDrawdown ind cfg = false →
      checkDrawdown fmt cp ind cfg = checkVix fmt cp ind cfg) := by
  constructor
  · intro htrue
    unfold checkDrawdown
    cases hd : ind.drawdown with
    | none =>
      exfalso
      unfold ruleDrawdown at htrue
      rw [hd] at htrue
      simp at htrue
    | some dd =>
      dsimp only
      split_ifs with hc
      · exact ⟨rfl, rfl⟩
      · exfalso
        unfold ruleDrawdown at htrue
        rw [hd] at htrue
        simp [hc] at htrue
  · intro hfalse
    unfold checkDrawdown
    cases hd : ind.drawdown with
    | none => rfl
    | some dd =>
      dsimp only
      split_ifs with hc
      · exfalso
        unfold ruleDrawdown at hfalse
        rw [hd] at hfalse
        simp [hc] at hfalse
      · rfl

lemma checkDailyDrop_spec (fmt : String → ℚ → String) (cp : ℚ)
    (ph : List ℚ) (ind : Indicators) (cfg : SignalConfig) :
    (ruleDailyDrop cp ph cfg = true →
      (checkDailyDrop fmt cp ph ind cfg).triggered = true ∧
        (checkDailyDrop fmt cp ph ind cfg).reason_code = .PRICE_DROP) ∧
    (ruleDailyDrop cp ph cfg = false →
      checkDailyDrop fmt cp ph ind cfg = checkDrawdown fmt cp ind cfg) := by
  constructor
  · intro htrue
    unfold checkDailyDrop
    dsimp only
    split_ifs with h1 h2
    · exact ⟨rfl, rfl⟩
    · exfalso
      unfold ruleDailyDrop at htrue
      simp [h1] at htrue
      simp at h2
      exact absurd htrue (not_le.mpr h2)
    · exfalso
      unfold ruleDailyDrop at htrue
      simp [h1] at htrue
  · intro hfalse
    unfold checkDailyDrop
    dsimp only
    split_ifs with h1 h2
    · exfalso
      unfold ruleDailyDrop at hfalse
      simp at h2
      simp [h1, h2] at hfalse
    · rfl
    · rfl

/-- C7: `check_buy_signals` tests the rules in the fixed priority order
daily-drop, drawdown, VIX, RSI, MACD golden cross, support level; the result
carries the reason code of the first matching rule only, and when no rule
matches it is the not-triggered result with an empty reason text. -/
theorem buy_signals_first_match (fmt : String → ℚ → String)
    (current_price : ℚ) (price_history : List ℚ) (indicators : Indicators)
    (config : SignalConfig) :
    ((check_buy_signals fmt current_price price_history indicators
        config).triggered =
      (firstSignal current_price price_history indicators config).isSome) ∧
    (∀ code,
      firstSignal current_price price_history indicators config =
        some code →
      (check_buy_signals fmt current_price price_history indicators
          config).triggered = true ∧
        (check_buy_signals fmt current_price price_history indicators
          config).reason_code = code) ∧
    (firstSignal current_price price_history indicators config = none →
      check_buy_signals fmt current_price price_history indicators config =
        notTriggered) := by
  unfold check_buy_signals firstSignal signalRules
  by_cases h1 : ruleDailyDrop current_price price_history config
  · have hs := (checkDailyDrop_spec fmt current_price price_history
      indicators config).1 h1
    rw [List.find?_cons_of_pos _ (by simpa using h1)]
    refine ⟨by simp [hs.1], ?_, by simp⟩
    intro code hcode
    simp only [Option.map_some', Option.some.injEq] at hcode
    rw [← hcode]
    exact ⟨hs.1, hs.2⟩
  · rw [List.find?_cons_of_neg _ (by simpa using h1)]
    rw [(checkDailyDrop_spec fmt current_price price_history indicators
      config).2 (by simpa using h1)]
    by_cases h2 : ruleDrawdown indicators config
    · have hs := (checkDrawdown_spec fmt current_price indicators
        config).1 h2
      rw [List.find?_cons_of_pos _ (by simpa using h2)]
      refine ⟨by simp [hs.1], ?_, by simp⟩
      intro code hcode
      simp only [Option.map_some', Option.some.injEq] at hcode
      rw [← hcode]
      exact ⟨hs.1, hs.2⟩
    · rw [List.find?_cons_of_neg _ (by simpa using h2)]
      rw [(checkDrawdown_spec fmt current_price indicators config).2
        (by simpa using h2)]
      by_cases h3 : ruleVix indicators config
      · have hs := (checkVix_spec fmt current_price indicators config).1 h3
        rw [List.find?_cons_of_pos _ (by simpa using h3)]
        refine ⟨by simp [hs.1], ?_, by simp⟩
        intro code hcode
        simp only [Option.map_some', Option.some.injEq] at hcode
        rw [← hcode]
        exact ⟨hs.1, hs.2⟩
      · rw [List.find?_cons_of_neg _ (by simpa using h3)]
        rw [(checkVix_spec fmt current_price indicators config).2
          (by simpa using h3)]
        by_cases h4 : ruleRsi indicators config
        · have hs := (checkRsi_spec fmt current_price indicators
            config).1 h4
          rw [List.find?_cons_of_pos _ (by simpa using h4)]
          refine ⟨by simp [hs.1], ?_, by simp⟩
          intro code hcode
          simp only [Option.map_some', Option.some.injEq] at hcode
          rw [← hcode]
          exact ⟨hs.1, hs.2⟩
        · rw [List.find?_cons_of_neg _ (by simpa using h4)]
          rw [(checkRsi_spec fmt current_price indicators config).2
            (by simpa using h4)]
          by_cases h5 : ruleMacd indicators
          · have hs := (checkMacd_spec fmt current_price indicators).1 h5
            rw [List.find?_cons_of_pos _ (by simpa using h5)]
            refine ⟨by simp [hs.1], ?_, by simp⟩
            intro code hcode
            simp only [Option.map_some', Option.some.injEq] at hcode
            rw [← hcode]
            exact ⟨hs.1, hs.2⟩
          · rw [List.find?_cons_of_neg _ (by simpa using h5)]
            rw [(checkMacd_spec fmt current_price indicators).2
              (by simpa using h5)]
            by_cases h6 : ruleSupport current_price indicators
            · have hs := (checkSupportLevel_spec fmt current_price
                indicators).1 h6
              rw [List.find?_cons_of_pos _ (by simpa using h6)]
              refine ⟨by simp [hs.1], ?_, by simp⟩
              intro code hcode
              simp only [Option.map_some', Option.some.injEq] at hcode
              rw [← hcode]
              exact ⟨hs.1, hs.2⟩
            · rw [List.find?_cons_of_neg _ (by simpa using h6)]
              rw [(checkSupportLevel_spec fmt current_price indicators).2
                (by simpa using h6)]
              simp [notTriggered]

/-- Witness for C7: with only an oversold RSI present, the first matching
rule is RSI and the result carries that reason code. -/
theorem buy_signals_first_match_witness :
    (check_buy_signals (fun _ _ => "") 0 []
        ⟨none, none, some 10, none, none, none, none, none⟩
        ⟨none, none, none, none⟩).triggered = true ∧
      (check_buy_signals (fun _ _ => "") 0 []
        ⟨none, none, some 10, none, none, none, none, none⟩
        ⟨none, none, none, none⟩).reason_code = BuyReason.RSI_OVERSOLD :=
  (buy_signals_first_match (fun _ _ => "") 0 []
    ⟨none, none, some 10, none, none, none, none, none⟩
    ⟨none, none, none, none⟩).2.1 BuyReason.RSI_OVERSOLD (by decide)

/-! ### C8: calendar lemmas and the monthly schedule -/

lemma one_le_daysInMonthTable (l : Bool) (m : ℕ) :
    1 ≤ daysInMonthTable l m := by
  unfold daysInMonthTable
  split <;> (try split) <;> norm_num

lemma daysInMonthTable_feb_le (l : Bool) : daysInMonthTable l 2 ≤ 31 := by
  cases l <;> decide

lemma month_table_step : ∀ (l : Bool), ∀ m2, m2 < 13 → ∀ m1, m1 < m2 →
    1 ≤ m1 →
    daysBeforeMonth l m1 + daysInMonthTable l m1 ≤ daysBeforeMonth l m2 := by
  decide

lemma month_table_year : ∀ (l : Bool), ∀ m, m < 13 → 1 ≤ m →
    daysBeforeMonth l m + daysInMonthTable l m ≤
      365 + (if l then 1 else 0) := by
  decide

lemma leapsUpto_succ (n : ℕ) :
    leapsUpto (n + 1) = leapsUpto n + (if isLeapYear (n + 1) then 1 else 0)
    := by
  have hleap : isLeapYear (n + 1) = true ↔
      ((4 ∣ n + 1) ∧ ¬ (100 ∣ n + 1)) ∨ (400 ∣ n + 1) := by
    unfold isLeapYear
    simp [Nat.dvd_iff_mod_eq_zero]
  unfold leapsUpto
  by_cases hl : isLeapYear (n + 1) = true
  · rw [if_pos hl]
    rw [hleap] at hl
    omega
  · rw [if_neg hl]
    rw [hleap] at hl
    push_neg at hl
    omega

lemma yearStart_succ (y : ℕ) (hy : 1 ≤ y) :
    yearStart (y + 1) = yearStart y + 365 +
      (if isLeapYear y then 1 else 0) := by
  unfold yearStart
  have h : y - 1 + 1 = y := by omega
  have h2 := leapsUpto_succ (y - 1)
  rw [h] at h2
  simp only [Nat.add_sub_cancel]
  omega

lemma yearStart_mono {m n : ℕ} (h : m ≤ n) : yearStart m ≤ yearStart n := by
  unfold yearStart leapsUpto
  omega

lemma toDays_eq (dt : Date) :
    dt.toDays = yearStart dt.y +
      daysBeforeMonth (isLeapYear dt.y) dt.m + (dt.d - 1) := rfl

lemma toDays_le_within_month {a b : Date} (hy : a.y = b.y) (hm : a.m = b.m)
    (hd : a.d ≤ b.d) : a.toDays ≤ b.toDays := by
  rw [toDays_eq, toDays_eq, hy, hm]
  omega

lemma toDays_lt_of_monthIdx_lt {a b : Date} (ha : a.Valid) (hb : b.Valid)
    (h : 12 * a.y + a.m < 12 * b.y + b.m) : a.toDays < b.toDays := by
  obtain ⟨hay, ham1, ham2, had1, had2⟩ := ha
  obtain ⟨hby, hbm1, hbm2, hbd1, hbd2⟩ := hb
  rw [toDays_eq, toDays_eq]
  rcases Nat.lt_or_ge a.y b.y with hy | hy
  · -- a is in an earlier year
    have hstep := month_table_year (isLeapYear a.y) a.m (by omega) ham1
    have hys : yearStart (a.y + 1) = yearStart a.y + 365 +
        (if isLeapYear a.y then 1 else 0) := yearStart_succ a.y hay
    have hmono : yearStart (a.y + 1) ≤ yearStart b.y :=
      yearStart_mono (by omega)
    have hd2 : daysBeforeMonth (isLeapYear a.y) a.m + (a.d - 1) <
        365 + (if isLeapYear a.y then 1 else 0) := by omega
    omega
  · -- same year, earlier month
    have hyy : a.y = b.y := by omega
    have hmm : a.m < b.m := by omega
    have hstep := month_table_step (isLeapYear b.y) b.m (by omega) a.m
      (by omega) ham1
    rw [hyy]
    rw [hyy] at had2
    omega

lemma monthIdx_le_of_toDays_le {a b : Date} (ha : a.Valid) (hb : b.Valid)
    (h : a.toDays ≤ b.toDays) : 12 * a.y + a.m ≤ 12 * b.y + b.m := by
  by_contra hcon
  exact absurd (toDays_lt_of_monthIdx_lt hb ha (by omega)) (by omega)

lemma addMonth_monthIdx (c : Date) :
    12 * c.addMonth.y + c.addMonth.m = 12 * c.y + c.m + 1 := by
  unfold Date.addMonth
  by_cases h : c.m = 12 <;> simp [h] <;> omega

lemma addMonth_valid {c : Date} (hc : c.Valid) : c.addMonth.Valid := by
  obtain ⟨h1, h2, h3, h4, h5⟩ := hc
  unfold Date.addMonth Date.Valid
  by_cases h : c.m = 12
  · simp only [if_pos h]
    refine ⟨by omega, by norm_num, by norm_num, ?_, Nat.min_le_right _ _⟩
    exact le_min_iff.mpr ⟨h4, one_le_daysInMonthTable _ _⟩
  · simp only [if_neg h]
    refine ⟨by omega, by omega, by omega, ?_, Nat.min_le_right _ _⟩
    exact le_min_iff.mpr ⟨h4, one_le_daysInMonthTable _ _⟩

lemma genMonthlyGo_day_clamped (startD endD : Date) (dom : ℕ) :
    ∀ (fuel : ℕ) (cur : Date), ∀ d ∈ genMonthlyGo startD endD dom fuel cur,
      d.d = min dom (daysInMonthTable (isLeapYear d.y) d.m) := by
  intro fuel
  induction fuel with
  | zero =>
    intro cur d hd
    simp [genMonthlyGo] at hd
  | succ fuel ih =>
    intro cur d hd
    unfold genMonthlyGo at hd
    by_cases hc : cur.toDays ≤ endD.toDays
    · rw [if_pos hc] at hd
      rcases List.mem_append.mp hd with h1 | h1
      · split_ifs at h1
        · simp only [List.mem_singleton] at h1
          subst h1
          rfl
        · simp at h1
      · exact ih _ d h1
    · rw [if_neg hc] at hd
      simp at hd

lemma genMonthlyGo_february (startD endD : Date) (y : ℕ)
    (hse : startD.toDays ≤
      (⟨y, 2, daysInMonthTable (isLeapYear y) 2⟩ : Date).toDays)
    (hee : (⟨y, 2, daysInMonthTable (isLeapYear y) 2⟩ : Date).toDays ≤
      endD.toDays)
    (hy : 1 ≤ y) :
    ∀ (fuel : ℕ) (cur : Date), cur.Valid →
      12 * cur.y + cur.m ≤ 12 * y + 2 →
      12 * y + 2 + 1 ≤ fuel + (12 * cur.y + cur.m) →
      (⟨y, 2, daysInMonthTable (isLeapYear y) 2⟩ : Date) ∈
        genMonthlyGo startD endD 31 fuel cur := by
  intro fuel
  induction fuel with
  | zero =>
    intro cur hcv hcidx hfuel
    omega
  | succ fuel ih =>
    intro cur hcv hcidx hfuel
    have hdimle : daysInMonthTable (isLeapYear y) 2 ≤ 31 :=
      daysInMonthTable_feb_le _
    have hdimge : 1 ≤ daysInMonthTable (isLeapYear y) 2 :=
      one_le_daysInMonthTable _ _
    have hfebv : (⟨y, 2, daysInMonthTable (isLeapYear y) 2⟩ : Date).Valid :=
      ⟨hy, by norm_num, by norm_num, hdimge, le_rfl⟩
    rcases Nat.lt_or_ge (12 * cur.y + cur.m) (12 * y + 2) with hlt | hge
    · -- before February: the loop keeps running
      have hcle : cur.toDays ≤ endD.toDays :=
        le_trans (le_of_lt (toDays_lt_of_monthIdx_lt hcv hfebv hlt)) hee
      unfold genMonthlyGo
      rw [if_pos hcle]
      refine List.mem_append_right _ ?_
      refine ih cur.addMonth (addMonth_valid hcv) ?_ ?_
      · rw [addMonth_monthIdx]
        omega
      · rw [addMonth_monthIdx]
        omega
    · -- cur is in February of year y
      have hcy : cur.y = y ∧ cur.m = 2 := by
        obtain ⟨_, hm1, hm2, _, _⟩ := hcv
        omega
      have hcle : cur.toDays ≤ endD.toDays := by
        refine le_trans ?_ hee
        refine toDays_le_within_month hcy.1 hcy.2 ?_
        have := hcv.2.2.2.2
        rw [hcy.1, hcy.2] at this
        exact this
      unfold genMonthlyGo
      rw [if_pos hcle]
      have hinv : (⟨cur.y, cur.m,
          min 31 (daysInMonthTable (isLeapYear cur.y) cur.m)⟩ : Date) =
          ⟨y, 2, daysInMonthTable (isLeapYear y) 2⟩ := by
        rw [hcy.1, hcy.2]
        congr 1
        omega
      rw [hinv]
      refine List.mem_append_left _ ?_
      rw [if_pos ⟨hse, hee⟩]
      exact List.mem_singleton_self _

/-- C8: every date generated by the monthly schedule has its day-of-month
clamped to `min(day_of_month, days_in_month)`; and with `day_of_month = 31`
over a range containing all of February of year `y` (the range starting no
later than that February), the generated schedule contains February's last
calendar day — February is not skipped. -/
theorem monthly_schedule_clamps_and_february (startD endD : Date)
    (dom : ℕ) (y : ℕ) (hs : startD.Valid) (he : endD.Valid) :
    (∀ d ∈ _generate_investment_dates startD endD "monthly" ⟨some dom⟩,
      d.d = min dom (daysInMonthTable (isLeapYear d.y) d.m)) ∧
    (1 ≤ y →
      12 * startD.y + startD.m ≤ 12 * y + 2 →
      (⟨y, 2, daysInMonthTable (isLeapYear y) 2⟩ : Date).toDays ≤
        endD.toDays →
      (⟨y, 2, daysInMonthTable (isLeapYear y) 2⟩ : Date) ∈
        _generate_investment_dates startD endD "monthly" ⟨some 31⟩) := by
  constructor
  · intro d hd
    unfold _generate_investment_dates at hd
    simp only [beq_self_eq_true, if_true] at hd
    exact genMonthlyGo_day_clamped startD endD dom _ startD d hd
  · intro hy hidx hee
    have hdimge : 1 ≤ daysInMonthTable (isLeapYear y) 2 :=
      one_le_daysInMonthTable _ _
    have hfebv : (⟨y, 2, daysInMonthTable (isLeapYear y) 2⟩ : Date).Valid :=
      ⟨hy, by norm_num, by norm_num, hdimge, le_rfl⟩
    have hse : startD.toDays ≤
        (⟨y, 2, daysInMonthTable (isLeapYear y) 2⟩ : Date).toDays := by
      rcases Nat.lt_or_ge (12 * startD.y + startD.m) (12 * y + 2) with h | h
      · exact le_of_lt (toDays_lt_of_monthIdx_lt hs hfebv h)
      · have hsy : startD.y = y ∧ startD.m = 2 := by
          obtain ⟨_, hm1, hm2, _, _⟩ := hs
          omega
        refine toDays_le_within_month hsy.1 hsy.2 ?_
        have := hs.2.2.2.2
        rw [hsy.1, hsy.2] at this
        exact this
    have hendidx : 12 * y + 2 ≤ 12 * endD.y + endD.m :=
      monthIdx_le_of_toDays_le hfebv he hee
    unfold _generate_investment_dates
    simp only [beq_self_eq_true, if_true]
    refine genMonthlyGo_february startD endD y hse hee hy _ startD hs hidx ?_
    unfold monthIdx
    have hsidx : 13 ≤ 12 * startD.y + startD.m := by
      obtain ⟨h1, h2, _, _, _⟩ := hs
      omega
    omega

/-- Witness for C8: schedule from 2021-01-15 to 2021-03-15 with
`day_of_month = 31`; the generated dates all have clamped days and include
2021-02-28 (February's last day in a non-leap year). -/
theorem monthly_schedule_clamps_and_february_witness :
    (⟨2021, 2, 28⟩ : Date) ∈
      _generate_investment_dates ⟨2021, 1, 15⟩ ⟨2021, 3, 15⟩ "monthly"
        ⟨some 31⟩ := by
  have h := (monthly_schedule_clamps_and_february ⟨2021, 1, 15⟩
    ⟨2021, 3, 15⟩ 31 2021 (by decide) (by decide)).2 (by norm_num)
    (by norm_num) (by decide)
  have hdim : daysInMonthTable (isLeapYear 2021) 2 = 28 := by decide
  rw [hdim] at h
  exact h

/-! ### Totality of the metric pipeline, and claims C6 and C9 -/

lemma calculate_total_return_isOk (s e : ℚ) :
    ∃ v, calculate_total_return s e = .ok v := by
  unfold calculate_total_return divE
  by_cases h : s ≤ 0
  · exact ⟨0, by rw [if_pos h]⟩
  · refine ⟨(e - s) / s * 100, ?_⟩
    rw [if_neg h, if_neg (ne_of_gt (lt_of_not_le h))]
    rfl

lemma calculate_annualized_return_isOk (powf : ℚ → ℚ → ℚ) (s e y : ℚ) :
    ∃ v, calculate_annualized_return powf s e y = .ok v := by
  unfold calculate_annualized_return divE
  by_cases h : s ≤ 0 ∨ y ≤ 0
  · exact ⟨0, by rw [if_pos h]⟩
  · refine ⟨(powf (e / s) (1 / y) - 1) * 100, ?_⟩
    rw [if_neg h]
    rw [if_neg (ne_of_gt (lt_of_not_le (fun hs => h (Or.inl hs))))]
    rfl

lemma calculate_sharpe_ratio_isOk (sqrtf : ℚ → ℚ) (returns : List ℚ)
    (rf : ℚ) : ∃ v, calculate_sharpe_ratio sqrtf returns rf = .ok v := by
  unfold calculate_sharpe_ratio divE
  by_cases h : returns.length < 2
  · exact ⟨0, by rw [if_pos h]⟩
  · rw [if_neg h]
    dsimp only
    by_cases hs : npStd1 sqrtf (returns.map (fun r => r - rf / 252)) = 0
    · exact ⟨0, by rw [if_pos hs]⟩
    · refine ⟨npMean (returns.map (fun r => r - rf / 252)) /
        npStd1 sqrtf (returns.map (fun r => r - rf / 252)) * sqrtf 252, ?_⟩
      rw [if_neg hs, if_neg hs]
      rfl

lemma calculate_sortino_ratio_isOk (sqrtf : ℚ → ℚ) (returns : List ℚ)
    (rf tgt : ℚ) :
    ∃ v, calculate_sortino_ratio sqrtf returns rf tgt = .ok v := by
  unfold calculate_sortino_ratio divE
  by_cases h : returns.length < 2
  · exact ⟨0, by rw [if_pos h]⟩
  · rw [if_neg h]
    dsimp only
    by_cases hs : downsideStd sqrtf returns tgt = 0
    · exact ⟨0, by rw [if_pos hs]⟩
    · refine ⟨npMean (returns.map (fun r => r - rf / 252)) /
        downsideStd sqrtf returns tgt * sqrtf 252, ?_⟩
      rw [if_neg hs, if_neg hs]
      rfl

lemma except_bind_ok {α β : Type} (m : Except String α)
    (f : α → Except String β) (hm : ∃ a, m = .ok a)
    (hf : ∀ a, ∃ b, f a = .ok b) : ∃ b, m >>= f = .ok b := by
  obtain ⟨a, ha⟩ := hm
  obtain ⟨b, hb⟩ := hf a
  exact ⟨b, by rw [ha]; exact hb⟩

lemma except_mapM_ok {α β : Type} (f : α → Except String β) (l : List α)
    (hf : ∀ a, ∃ b, f a = .ok b) : ∃ bs, l.mapM f = .ok bs := by
  induction l with
  | nil => exact ⟨[], rfl⟩
  | cons a l ih =>
    obtain ⟨b, hb⟩ := hf a
    obtain ⟨bs, hbs⟩ := ih
    refine ⟨b :: bs, ?_⟩
    rw [List.mapM_cons, hb]
    show l.mapM f >>= _ = _
    rw [hbs]
    rfl

lemma calculate_risk_metrics_isOk (sqrtf : ℚ → ℚ) (powf : ℚ → ℚ → ℚ)
    (pv : List ValuePoint) :
    ∃ rm, calculate_risk_metrics sqrtf powf pv = .ok rm := by
  unfold calculate_risk_metrics
  cases pv with
  | nil => exact ⟨none, rfl⟩
  | cons p rest =>
    dsimp only
    refine except_bind_ok _ _ (calculate_total_return_isOk _ _)
      (fun tr => ?_)
    refine except_bind_ok _ _ (calculate_annualized_return_isOk _ _ _ _)
      (fun ar => ?_)
    refine except_bind_ok _ _ (calculate_sharpe_ratio_isOk _ _ _)
      (fun sh => ?_)
    refine except_bind_ok _ _ (calculate_sortino_ratio_isOk _ _ _ _)
      (fun so => ?_)
    exact ⟨_, rfl⟩

lemma calculate_annual_returns_isOk (sqrtf : ℚ → ℚ)
    (pv : List ValuePoint) :
    ∃ l, calculate_annual_returns sqrtf pv = .ok l := by
  unfold calculate_annual_returns
  by_cases h : pv.isEmpty
  · exact ⟨[], by rw [if_pos h]⟩
  · rw [if_neg h]
    refine except_mapM_ok _ _ (fun y => ?_)
    dsimp only
    refine except_bind_ok _ _ (calculate_total_return_isOk _ _)
      (fun ar => ?_)
    exact ⟨_, rfl⟩

lemma run_backtest_status_completed (sqrtf : ℚ → ℚ) (powf : ℚ → ℚ → ℚ)
    (cfg : BacktestConfig) (sd : StockData)
    (hv : _validate_config cfg = .ok ()) :
    (run_backtest sqrtf powf cfg sd).status = "completed" := by
  unfold run_backtest
  rw [hv]
  dsimp only
  obtain ⟨rm, hrm⟩ :=
    calculate_risk_metrics_isOk sqrtf powf (backtestPortfolioValues cfg sd)
  rw [hrm]
  obtain ⟨an, han⟩ :=
    calculate_annual_returns_isOk sqrtf (backtestPortfolioValues cfg sd)
  rw [han]

/-- C6: a configuration whose asset weights sum to a value differing from
100 by more than 0.01 makes `_validate_config` raise a configuration error
(a weight-sum error, unless an earlier check in source order already
failed), before any simulation step runs: for every stock data set,
`run_backtest` returns the failure result with status `"failed"` carrying
that error, instead of raising. -/
theorem invalid_weight_sum_fails_before_simulation
    (sqrtf : ℚ → ℚ) (powf : ℚ → ℚ → ℚ) (cfg : BacktestConfig)
    (hw : 1 / 100 < |totalWeight cfg - 100|) :
    ∃ e : ConfigError, _validate_config cfg = .error e ∧
      ∀ sd : StockData,
        run_backtest sqrtf powf cfg sd = failedResult (.config e) ∧
        (run_backtest sqrtf powf cfg sd).status = "failed" ∧
        (run_backtest sqrtf powf cfg sd).error = some (.config e) := by
  have hval : ∃ e, _validate_config cfg = .error e := by
    unfold _validate_config
    by_cases h1 : cfg.assets.isEmpty
    · exact ⟨.noAssets, by rw [if_pos h1]⟩
    · by_cases h2 : max_assets_count < cfg.assets.length
      · exact ⟨.tooManyAssets, by rw [if_neg h1, if_pos h2]⟩
      · exact ⟨.badWeightSum (totalWeight cfg), by
          rw [if_neg h1, if_neg h2, if_pos hw]⟩
  obtain ⟨e, he⟩ := hval
  refine ⟨e, he, fun sd => ?_⟩
  have hrun : run_backtest sqrtf powf cfg sd = failedResult (.config e) := by
    unfold run_backtest
    rw [he]
  refine ⟨hrun, ?_, ?_⟩
  · rw [hrun]
    rfl
  · rw [hrun]
    rfl

/-- Closed instance of C6 at a concrete configuration: one asset of weight
50, so the weights sum to 50 and the run fails. -/
theorem invalid_weight_sum_fails_before_simulation_witness :
    1 / 100 <
      |totalWeight ⟨[⟨"A", 50⟩], ⟨2024, 1, 1⟩, ⟨2024, 12, 31⟩, 5000,
        "none"⟩ - 100| ∧
    (run_backtest (fun _ => 0) (fun _ _ => 1)
      ⟨[⟨"A", 50⟩], ⟨2024, 1, 1⟩, ⟨2024, 12, 31⟩, 5000, "none"⟩
      []).status = "failed" := by
  have hw : 1 / 100 <
      |totalWeight ⟨[⟨"A", 50⟩], ⟨2024, 1, 1⟩, ⟨2024, 12, 31⟩, 5000,
        "none"⟩ - 100| := by
    norm_num [totalWeight]
  obtain ⟨e, he, hall⟩ := invalid_weight_sum_fails_before_simulation
    (fun _ => 0) (fun _ _ => 1) _ hw
  obtain ⟨hrun, hst, herr⟩ := hall []
  exact ⟨hw, hst⟩

/-- C9: every completed run truncates the returned series: a backtest
result's `time_series` is the first 100 entries of the computed daily value
series while its `risk_metrics` summary is computed from the full series; a
periodic-DCA result's `time_series` is the first 100 entries of the full
DCA series while `performance` is computed from the full series; a
conditional-DCA result's `triggers` list is the first 20 detected triggers
and its `time_series` the first 100 entries, while `performance` is
computed from the full series. -/
theorem result_series_truncation (sqrtf : ℚ → ℚ) (powf : ℚ → ℚ → ℚ) :
    (∀ (cfg : BacktestConfig) (sd : StockData),
      (run_backtest sqrtf powf cfg sd).status = "completed" →
      (run_backtest sqrtf powf cfg sd).time_series =
          (backtestPortfolioValues cfg sd).take 100 ∧
        (run_backtest sqrtf powf cfg sd).time_series.length ≤ 100 ∧
        (run_backtest sqrtf powf cfg sd).risk_metrics =
          (calculate_risk_metrics sqrtf powf
            (backtestPortfolioValues cfg sd)).toOption.map riskSummaryOf) ∧
    (∀ (cfg : DcaConfig) (sd : StockData),
      (run_periodic_dca cfg sd).status = "completed" →
      (run_periodic_dca cfg sd).time_series =
          (_calculate_dca_returns sd cfg.assets cfg.initial_amount
            cfg.investment_amount
            (_generate_investment_dates cfg.start_date cfg.end_date
              cfg.frequency cfg.frequency_config)).time_series.take 100 ∧
        (run_periodic_dca cfg sd).time_series.length ≤ 100 ∧
        (run_periodic_dca cfg sd).performance =
          _calculate_dca_metrics (_calculate_dca_returns sd cfg.assets
            cfg.initial_amount cfg.investment_amount
            (_generate_investment_dates cfg.start_date cfg.end_date
              cfg.frequency cfg.frequency_config))) ∧
    (∀ (cfg : CondDcaConfig) (sd : StockData),
      (run_conditional_dca cfg sd).status = "completed" →
      (run_conditional_dca cfg sd).triggers =
          (_detect_condition_triggers sd cfg.conditions).take 20 ∧
        (run_conditional_dca cfg sd).triggers.length ≤ 20 ∧
        (run_conditional_dca cfg sd).time_series =
          (_calculate_conditional_dca_returns sd cfg.assets
            cfg.initial_amount
            (_detect_condition_triggers sd
              cfg.conditions)).time_series.take 100 ∧
        (run_conditional_dca cfg sd).time_series.length ≤ 100 ∧
        (run_conditional_dca cfg sd).performance =
          _calculate_dca_metrics (_calculate_conditional_dca_returns sd
            cfg.assets cfg.initial_amount
            (_detect_condition_triggers sd cfg.conditions))) := by
  refine ⟨fun cfg sd hstat => ?_, fun cfg sd hstat => ?_,
    fun cfg sd hstat => ?_⟩
  · cases hval : _validate_config cfg with
    | error e =>
      exfalso
      unfold run_backtest at hstat
      rw [hval] at hstat
      have hff : ("failed" : String) = "completed" := hstat
      exact absurd hff (by decide)
    | ok u =>
      cases u
      unfold run_backtest
      rw [hval]
      dsimp only
      obtain ⟨rm, hrm⟩ := calculate_risk_metrics_isOk sqrtf powf
        (backtestPortfolioValues cfg sd)
      rw [hrm]
      obtain ⟨an, han⟩ := calculate_annual_returns_isOk sqrtf
        (backtestPortfolioValues cfg sd)
      rw [han]
      exact ⟨rfl, List.length_take_le _ _, rfl⟩
  · cases h : noValidData sd with
    | true =>
      exfalso
      unfold run_periodic_dca at hstat
      rw [h, if_pos rfl] at hstat
      have hff : ("failed" : String) = "completed" := hstat
      exact absurd hff (by decide)
    | false =>
      unfold run_periodic_dca
      rw [h, if_neg Bool.false_ne_true]
      exact ⟨rfl, List.length_take_le _ _, rfl⟩
  · cases h : noValidData sd with
    | true =>
      exfalso
      unfold run_conditional_dca at hstat
      rw [h, if_pos rfl] at hstat
      have hff : ("failed" : String) = "completed" := hstat
      exact absurd hff (by decide)
    | false =>
      unfold run_conditional_dca
      rw [h, if_neg Bool.false_ne_true]
      exact ⟨rfl, List.length_take_le _ _, rfl,
        List.length_take_le _ _, rfl⟩

/-- Closed instance of C9: on a one-asset data set, a completed backtest,
a completed periodic-DCA run and a completed conditional-DCA run all
return series within the truncation bounds. -/
theorem result_series_truncation_witness :
    (run_backtest (fun _ => 0) (fun _ _ => 1)
      ⟨[⟨"A", 100⟩], ⟨2024, 1, 1⟩, ⟨2024, 12, 31⟩, 5000, "none"⟩
      [("A", [(⟨2024, 1, 2⟩, 100)])]).time_series.length ≤ 100 ∧
    (run_periodic_dca
      ⟨[⟨"A", 100⟩], ⟨2024, 1, 1⟩, ⟨2024, 1, 31⟩, 1000, 100, "monthly",
        ⟨some 1⟩⟩
      [("A", [(⟨2024, 1, 2⟩, 100)])]).time_series.length ≤ 100 ∧
    (run_conditional_dca
      ⟨[⟨"A", 100⟩], ⟨2024, 1, 1⟩, ⟨2024, 1, 31⟩, 1000, []⟩
      [("A", [(⟨2024, 1, 2⟩, 100)])]).triggers.length ≤ 20 := by
  have hv : _validate_config
      ⟨[⟨"A", 100⟩], ⟨2024, 1, 1⟩, ⟨2024, 12, 31⟩, 5000, "none"⟩ =
      .ok () := by
    norm_num [_validate_config, totalWeight, max_assets_count,
      min_initial_amount, max_initial_amount]
  have h1 := (result_series_truncation (fun _ => 0) (fun _ _ => 1)).1
    ⟨[⟨"A", 100⟩], ⟨2024, 1, 1⟩, ⟨2024, 12, 31⟩, 5000, "none"⟩
    [("A", [(⟨2024, 1, 2⟩, 100)])]
    (run_backtest_status_completed _ _ _ _ hv)
  have h2 := (result_series_truncation (fun _ => 0) (fun _ _ => 1)).2.1
    ⟨[⟨"A", 100⟩], ⟨2024, 1, 1⟩, ⟨2024, 1, 31⟩, 1000, 100, "monthly",
      ⟨some 1⟩⟩
    [("A", [(⟨2024, 1, 2⟩, 100)])] rfl
  have h3 := (result_series_truncation (fun _ => 0) (fun _ _ => 1)).2.2
    ⟨[⟨"A", 100⟩], ⟨2024, 1, 1⟩, ⟨2024, 1, 31⟩, 1000, []⟩
    [("A", [(⟨2024, 1, 2⟩, 100)])] rfl
  exact ⟨h1.2.1, h2.2.1, h3.2.1⟩

end Backtest
